import Mathlib

/-!
# U2F core of Solo (`fido2/u2f.c`)

A shallow embedding of the request dispatcher `u2f_request`, the response
writer and the two command handlers `u2f_register` / `u2f_authenticate`.

Conventions of the embedding.

* Bytes and machine words are natural numbers.  Values that the C code narrows
  (`rcode` bytes, the counter, the length byte written by register) carry their
  explicit masks or `%`.
* C buffers that are only read through an index (the APDU payload, the response
  data array) are functions `Nat → Nat` from index to byte.
* Everything the file calls but does not define (crypto engine, RNG, user
  presence, DER encoder, attestation material, build configuration) is a field
  of `Env`; the mutable state these calls touch is a field of `World`.
* `exit(1)` in the response writer is the `none` of `Option`.
-/

namespace U2F

/-! ## Data model -/

/-- A C array `uint8_t a[n]`: a list of exactly `n` bytes. -/
abbrev Bytes (n : Nat) := { l : List Nat // l.length = n }

/-- The `n` bytes found at offset `off` of the buffer `p`. -/
def slice (p : Nat → Nat) (off n : Nat) : List Nat :=
  (List.range n).map fun i => p (off + i)

/-- The request header and payload, `struct u2f_request_apdu`. -/
structure u2f_request_apdu where
  cla : Nat
  ins : Nat
  p1 : Nat
  p2 : Nat
  LC1 : Nat
  LC2 : Nat
  LC3 : Nat
  payload : Nat → Nat

/-- The response buffer, `CTAP_RESPONSE`: the data array, its capacity and the
number of bytes written so far. -/
structure CTAP_RESPONSE where
  data : Nat → Nat
  data_size : Nat
  length : Nat

/-- The bytes a response holds: the first `length` bytes of its data array. -/
def CTAP_RESPONSE.bytes (r : CTAP_RESPONSE) : List Nat :=
  slice r.data 0 r.length

/-- The key handle, `struct u2f_key_handle`: `key` then `tag`. -/
structure u2f_key_handle where
  key : List Nat
  tag : List Nat
  deriving DecidableEq, Repr

/-- The bytes of a key handle as the crypto engine and the host see them,
`(uint8_t*)kh`. -/
def u2f_key_handle.raw (kh : u2f_key_handle) : List Nat :=
  kh.key ++ kh.tag

/-- The register payload, `struct u2f_register_request`. -/
structure u2f_register_request where
  chal : List Nat
  app : List Nat

/-- The authenticate payload, `struct u2f_authenticate_request`. -/
structure u2f_authenticate_request where
  chal : List Nat
  app : List Nat
  khl : Nat
  kh : u2f_key_handle

/-- The key the ECDSA engine will sign with. -/
inductive EccKey
  | unloaded
  | handle (raw : List Nat)
  | attestation
  deriving DecidableEq, Repr

/-- The mutable state the core reads and writes: the response buffer that
`_u2f_resp` points to, the persistent counter, how many RNG bytes were drawn,
how many presence tests were made, the key loaded in the ECDSA engine and the
record of every signing operation (key used, hash signed). -/
structure World where
  _u2f_resp : CTAP_RESPONSE
  counter : Nat
  rng_pos : Nat
  up_tests : Nat
  ecc_key : EccKey
  signed : List (EccKey × List Nat)

/-- The response `r` after `len` bytes of `buf` were copied to its end: the
effect of the `memmove` and of the length update of the response writer. -/
def CTAP_RESPONSE.written (r : CTAP_RESPONSE) (buf : List Nat) (len : Nat) :
    CTAP_RESPONSE :=
  { r with
    data := fun i =>
      if r.length ≤ i ∧ i < r.length + len then buf.getD (i - r.length) 0
      else r.data i
    length := r.length + len }

/-- The state `w` with `r` as the content of the response buffer and everything
else as it is in `w`. -/
def World.withResp (w : World) (r : CTAP_RESPONSE) : World :=
  { w with _u2f_resp := r }

/-- The build configuration and the external collaborators of `u2f.c`. -/
structure Env where
  /-- `U2F_KEY_HANDLE_KEY_SIZE` of `u2f.h`. -/
  U2F_KEY_HANDLE_KEY_SIZE : Nat
  /-- `U2F_KEY_HANDLE_TAG_SIZE` of `u2f.h`. -/
  U2F_KEY_HANDLE_TAG_SIZE : Nat
  /-- Whether `ENABLE_U2F` is defined by `APP_CONFIG`. -/
  ENABLE_U2F : Bool
  /-- The hook `extend_u2f`, present when `ENABLE_U2F_EXTENSIONS` is defined. -/
  extend_u2f : Option (u2f_request_apdu → Nat → World → Nat × World)
  /-- The device master key named by `CRYPTO_MASTER_KEY`. -/
  CRYPTO_MASTER_KEY : List Nat
  /-- SHA-256 of everything streamed between `crypto_sha256_init` and
  `crypto_sha256_final`. -/
  crypto_sha256 : List Nat → Bytes 32
  /-- HMAC-SHA-256, keyed, of everything streamed between
  `crypto_sha256_hmac_init` and `crypto_sha256_hmac_final`. -/
  crypto_sha256_hmac : List Nat → List Nat → Bytes 32
  /-- The coordinates `x`, `y` of the public key of the given key material. -/
  crypto_ecc256_derive_public_key : List Nat → Bytes 32 × Bytes 32
  /-- The raw signature of a hash under a key; the first argument counts the
  signatures made before, so that signing need not be deterministic. -/
  crypto_ecc256_sign : Nat → EccKey → List Nat → Bytes 64
  /-- The DER encoding of a raw signature, at most 72 bytes. -/
  ctap_encode_der_sig : List Nat → { l : List Nat // l.length ≤ 72 }
  /-- The attestation certificate `attestation_cert_der`. -/
  attestation_cert_der : List Nat
  /-- The value returned by the `n`-th call of `ctap_user_presence_test`. -/
  ctap_user_presence_test : Nat → Nat
  /-- The `i`-th byte the RNG produces. -/
  ctap_generate_rng : Nat → Nat

/-! ## Constants of `u2f.h`

The header is not part of the sources at hand; the command codes, control
bytes and status words are those the specification lists. -/

/-- Modelled from the spec: command code REGISTER. -/
def U2F_REGISTER : Nat := 0x01

/-- Modelled from the spec: command code AUTHENTICATE. -/
def U2F_AUTHENTICATE : Nat := 0x02

/-- Modelled from the spec: command code VERSION. -/
def U2F_VERSION : Nat := 0x03

/-- Modelled from the spec: first command code of the vendor range. -/
def U2F_VENDOR_FIRST : Nat := 0x40

/-- Modelled from the spec: last command code of the vendor range. -/
def U2F_VENDOR_LAST : Nat := 0xbf

/-- Modelled from the spec: control byte CHECK. -/
def U2F_AUTHENTICATE_CHECK : Nat := 0x7

/-- Modelled from the spec: control byte SIGN. -/
def U2F_AUTHENTICATE_SIGN : Nat := 0x3

/-- Modelled from the spec: the tag byte of an uncompressed EC point. -/
def U2F_EC_FMT_UNCOMPRESSED : Nat := 0x04

/-- Modelled from the spec: the size of an application identifier. -/
def U2F_APPLICATION_SIZE : Nat := 32

/-- Modelled from the spec: status word NO_ERROR. -/
def U2F_SW_NO_ERROR : Nat := 0x9000

/-- Modelled from the spec: status word WRONG_DATA. -/
def U2F_SW_WRONG_DATA : Nat := 0x6a80

/-- Modelled from the spec: status word CONDITIONS_NOT_SATISFIED. -/
def U2F_SW_CONDITIONS_NOT_SATISFIED : Nat := 0x6985

/-- Modelled from the spec: status word INS_NOT_SUPPORTED. -/
def U2F_SW_INS_NOT_SUPPORTED : Nat := 0x6d00

/-- Modelled from the spec: status word WRONG_LENGTH. -/
def U2F_SW_WRONG_LENGTH : Nat := 0x6700

/-- Modelled from the spec: status word CLASS_NOT_SUPPORTED. -/
def U2F_SW_CLASS_NOT_SUPPORTED : Nat := 0x6e00

/-- Modelled from the spec: status word WRONG_PAYLOAD, the value of
WRONG_DATA. -/
def U2F_SW_WRONG_PAYLOAD : Nat := 0x6a80

/-- Modelled from the spec: status word INSUFFICIENT_MEMORY. -/
def U2F_SW_INSUFFICIENT_MEMORY : Nat := 0x6a84

/-- The size of a key handle, `U2F_KEY_HANDLE_SIZE`: key size plus tag size. -/
def U2F_KEY_HANDLE_SIZE (env : Env) : Nat :=
  env.U2F_KEY_HANDLE_KEY_SIZE + env.U2F_KEY_HANDLE_TAG_SIZE

/-- Modelled from the spec: `CREDENTIAL_TAG_SIZE` of `ctap.h`, the number of
HMAC bytes kept as the tag; the spec truncates to the tag size of the handle. -/
def CREDENTIAL_TAG_SIZE (env : Env) : Nat :=
  env.U2F_KEY_HANDLE_TAG_SIZE

/-- The size of the attestation certificate, `attestation_cert_der_size`. -/
def attestation_cert_der_size (env : Env) : Nat :=
  env.attestation_cert_der.length

/-! ## Payload layouts -/

/-- The cast `(struct u2f_register_request*)req->payload`:
`chal[32]` then `app[32]`. -/
def as_register_request (payload : Nat → Nat) : u2f_register_request :=
  { chal := slice payload 0 32
    app := slice payload 32 32 }

/-- The cast `(struct u2f_authenticate_request*)req->payload`:
`chal[32]`, `app[32]`, `khl`, then the key handle. -/
def as_authenticate_request (env : Env) (payload : Nat → Nat) :
    u2f_authenticate_request :=
  { chal := slice payload 0 32
    app := slice payload 32 32
    khl := payload 64
    kh :=
      { key := slice payload 65 env.U2F_KEY_HANDLE_KEY_SIZE
        tag := slice payload (65 + env.U2F_KEY_HANDLE_KEY_SIZE)
          env.U2F_KEY_HANDLE_TAG_SIZE } }

/-! ## External calls that touch the state -/

/-- Modelled from the spec: `ctap_response_init` of `ctap.c`, the writer's
`reset()`, which sets the length to 0. -/
def ctap_response_init (r : CTAP_RESPONSE) : CTAP_RESPONSE :=
  { r with length := 0 }

/-- The presence test: one more test made, its result read from `Env`. -/
def ctap_user_presence_test (env : Env) (w : World) : Nat × World :=
  (env.ctap_user_presence_test w.up_tests, { w with up_tests := w.up_tests + 1 })

/-- The RNG call `ctap_generate_rng(dst, n)`: the next `n` bytes of the
stream. -/
def ctap_generate_rng (env : Env) (n : Nat) (w : World) : List Nat × World :=
  (slice env.ctap_generate_rng w.rng_pos n, { w with rng_pos := w.rng_pos + n })

/-- Modelled from the spec: `ctap_atomic_count` of the device layer, which
increments the persistent 32-bit counter and returns the new value. -/
def ctap_atomic_count (w : World) : Nat × World :=
  let c := (w.counter + 1) % 2 ^ 32
  (c, { w with counter := c })

/-- The engine call `crypto_ecc256_load_key(data, len, NULL, 0)`. -/
def crypto_ecc256_load_key (data : List Nat) (w : World) : World :=
  { w with ecc_key := EccKey.handle data }

/-- The engine call `crypto_ecc256_load_attestation_key()`. -/
def crypto_ecc256_load_attestation_key (w : World) : World :=
  { w with ecc_key := EccKey.attestation }

/-- The engine call `crypto_ecc256_sign(hash, 32, sig)`: signs with the loaded
key and records the operation. -/
def crypto_ecc256_sign (env : Env) (hash : List Nat) (w : World) :
    List Nat × World :=
  ((env.crypto_ecc256_sign w.signed.length w.ecc_key hash).val,
    { w with signed := w.signed ++ [(w.ecc_key, hash)] })

/-- The library call `memcmp(a, b, n)`; only its comparison with 0 is used. -/
def memcmp (a b : List Nat) (n : Nat) : Int :=
  if a.take n = b.take n then 0 else 1

/-! ## Response writer -/

/-- `u2f_set_writeback_buffer`: points `_u2f_resp` at the caller's buffer. -/
def u2f_set_writeback_buffer (w : World) (resp : CTAP_RESPONSE) : World :=
  { w with _u2f_resp := resp }

/-- `u2f_response_writeback(buf, len)`: `none` is `exit(1)`.  The `len` bytes of
`buf` are copied to `data + length`.  The sum in the guard is computed in `int`;
after the guard `length + len` is at most `data_size`, so the stored length is
the sum itself.  The return value, always 0, is ignored by every caller. -/
def u2f_response_writeback (w : World) (buf : List Nat) (len : Nat) :
    Option World :=
  let r := w._u2f_resp
  if r.length + len > r.data_size then none
  else some { w with _u2f_resp :=
    { r with
      data := fun i =>
        if r.length ≤ i ∧ i < r.length + len then buf.getD (i - r.length) 0
        else r.data i
      length := r.length + len } }

/-- `u2f_response_writeback(buf, len)` together with the value it returns: the
function has one `return`, of 0, which every caller discards;
`u2f_response_writeback` is this function without the value. -/
def u2f_response_writeback_ret (w : World) (buf : List Nat) (len : Nat) :
    Option (Int × World) :=
  let r := w._u2f_resp
  if r.length + len > r.data_size then none
  else some (0, { w with _u2f_resp :=
    { r with
      data := fun i =>
        if r.length ≤ i ∧ i < r.length + len then buf.getD (i - r.length) 0
        else r.data i
      length := r.length + len } })

/-- A sequence of appends, each of a whole buffer, in call order. -/
def writeback_seq (w : World) : List (List Nat) → Option World
  | [] => some w
  | buf :: rest =>
    (u2f_response_writeback w buf buf.length).bind fun w => writeback_seq w rest

/-- `u2f_reset_response`: resets the bound buffer. -/
def u2f_reset_response (w : World) : World :=
  { w with _u2f_resp := ctap_response_init w._u2f_resp }

/-- `dump_signature_der`: DER-encodes the raw signature and appends it. -/
def dump_signature_der (env : Env) (sig : List Nat) (w : World) : Option World :=
  let sigder := (env.ctap_encode_der_sig sig).val
  let len := sigder.length
  u2f_response_writeback w sigder len

/-! ## Key-handle codec -/

/-- `u2f_load_key`: loads the whole handle as the signing key; returns 0. -/
def u2f_load_key (env : Env) (kh : u2f_key_handle) (_appid : List Nat)
    (w : World) : Int × World :=
  (0, crypto_ecc256_load_key (kh.raw.take (U2F_KEY_HANDLE_SIZE env)) w)

/-- `u2f_make_auth_tag`: HMAC under the master key of `kh->key` then `appid`,
truncated to `CREDENTIAL_TAG_SIZE` bytes. -/
def u2f_make_auth_tag (env : Env) (kh : u2f_key_handle) (appid : List Nat) :
    List Nat :=
  let hashbuf := env.crypto_sha256_hmac env.CRYPTO_MASTER_KEY
    (kh.key.take env.U2F_KEY_HANDLE_KEY_SIZE ++ appid.take U2F_APPLICATION_SIZE)
  hashbuf.val.take (CREDENTIAL_TAG_SIZE env)

/-- `u2f_new_keypair`: draws the key from the RNG, computes the tag, derives
the public key `x ‖ y` from the whole handle; returns 0. -/
def u2f_new_keypair (env : Env) (appid : List Nat) (w : World) :
    Int × u2f_key_handle × List Nat × World :=
  let (key, w) := ctap_generate_rng env env.U2F_KEY_HANDLE_KEY_SIZE w
  let kh : u2f_key_handle := { key := key, tag := [] }
  let kh := { kh with tag := u2f_make_auth_tag env kh appid }
  let xy := env.crypto_ecc256_derive_public_key
    (kh.raw.take (U2F_KEY_HANDLE_SIZE env))
  (0, kh, xy.1.val ++ xy.2.val, w)

/-- `u2f_appid_eq`: 0 when the handle's tag equals the tag recomputed for
`appid`, else -1. -/
def u2f_appid_eq (env : Env) (kh : u2f_key_handle) (appid : List Nat) : Int :=
  let tag := u2f_make_auth_tag env kh appid
  if memcmp kh.tag tag env.U2F_KEY_HANDLE_TAG_SIZE = 0 then 0 else -1

/-! ## Command handlers -/

/-- The four bytes `count >> 24, count >> 16, count >> 8, count`, each masked
with `0xff`. -/
def count_bytes (count : Nat) : List Nat :=
  [(count >>> 24) &&& 0xff, (count >>> 16) &&& 0xff, (count >>> 8) &&& 0xff,
    (count >>> 0) &&& 0xff]

/-- `u2f_authenticate(req, control)`.  The raw signature is written over the
request payload, which is not read again afterwards. -/
def u2f_authenticate (env : Env) (req : u2f_authenticate_request)
    (control : Nat) (w : World) : Option (Nat × World) :=
  let up : Nat := 1
  if control = U2F_AUTHENTICATE_CHECK then
    if u2f_appid_eq env req.kh req.app = 0 then
      some (U2F_SW_CONDITIONS_NOT_SATISFIED, w)
    else
      some (U2F_SW_WRONG_DATA, w)
  else if control ≠ U2F_AUTHENTICATE_SIGN then some (U2F_SW_WRONG_PAYLOAD, w)
  else if req.khl ≠ U2F_KEY_HANDLE_SIZE env then some (U2F_SW_WRONG_PAYLOAD, w)
  else if u2f_appid_eq env req.kh req.app ≠ 0 then
    some (U2F_SW_WRONG_PAYLOAD, w)
  else
    let (loaded, w) := u2f_load_key env req.kh req.app w
    if loaded ≠ 0 then some (U2F_SW_WRONG_PAYLOAD, w)
    else
      let (present, w) := ctap_user_presence_test env w
      if present = 0 then some (U2F_SW_CONDITIONS_NOT_SATISFIED, w)
      else
        let (count, w) := ctap_atomic_count w
        let hash := count_bytes count
        let hash := (env.crypto_sha256
          (req.app ++ [up] ++ hash ++ req.chal)).val
        let (sig, w) := crypto_ecc256_sign env hash w
        (u2f_response_writeback w [up] 1).bind fun w =>
        let hash := count_bytes count
        (u2f_response_writeback w hash 4).bind fun w =>
        (dump_signature_der env sig w).bind fun w =>
        some (U2F_SW_NO_ERROR, w)

/-- `u2f_register(req)`.  The raw signature is written over the request
payload, which is not read again afterwards. -/
def u2f_register (env : Env) (req : u2f_register_request) (w : World) :
    Option (Nat × World) :=
  let i : List Nat := [0x0, U2F_EC_FMT_UNCOMPRESSED]
  let attest_size := attestation_cert_der_size env % 2 ^ 16
  let (present, w) := ctap_user_presence_test env w
  if present = 0 then some (U2F_SW_CONDITIONS_NOT_SATISFIED, w)
  else
    let (made, key_handle, pubkey, w) := u2f_new_keypair env req.app w
    if made = -1 then some (U2F_SW_INSUFFICIENT_MEMORY, w)
    else
      let hash := (env.crypto_sha256
        (i.take 1 ++ req.app ++ req.chal
          ++ key_handle.raw.take (U2F_KEY_HANDLE_SIZE env)
          ++ (i.drop 1).take 1 ++ pubkey.take 64)).val
      let w := crypto_ecc256_load_attestation_key w
      let (sig, w) := crypto_ecc256_sign env hash w
      let i := i.set 0 0x5
      (u2f_response_writeback w i 2).bind fun w =>
      (u2f_response_writeback w pubkey 64).bind fun w =>
      let i := i.set 0 (U2F_KEY_HANDLE_SIZE env % 256)
      (u2f_response_writeback w i 1).bind fun w =>
      (u2f_response_writeback w key_handle.raw (U2F_KEY_HANDLE_SIZE env)).bind
        fun w =>
      (u2f_response_writeback w env.attestation_cert_der attest_size).bind
        fun w =>
      (dump_signature_der env sig w).bind fun w =>
      some (U2F_SW_NO_ERROR, w)

/-- `u2f_version`: appends the six bytes of `"U2F_V2"`. -/
def u2f_version (w : World) : Option (Nat × World) :=
  let version : List Nat := [0x55, 0x32, 0x46, 0x5f, 0x56, 0x32, 0x00]
  (u2f_response_writeback w version (version.length - 1)).bind fun w =>
  some (U2F_SW_NO_ERROR, w)

/-! ## Dispatcher -/

/-- The `switch (req->ins)` of `u2f_request`, compiled in when `ENABLE_U2F` is
defined. -/
def u2f_request_switch (env : Env) (req : u2f_request_apdu) (len : Nat)
    (w : World) : Option (Nat × World) :=
  if req.ins = U2F_REGISTER then
    if len ≠ 64 then some (U2F_SW_WRONG_LENGTH, w)
    else u2f_register env (as_register_request req.payload) w
  else if req.ins = U2F_AUTHENTICATE then
    u2f_authenticate env (as_authenticate_request env req.payload) req.p1 w
  else if req.ins = U2F_VERSION then
    if len ≠ 0 then some (U2F_SW_WRONG_LENGTH, w)
    else u2f_version w
  else if req.ins = U2F_VENDOR_FIRST ∨ req.ins = U2F_VENDOR_LAST then
    some (U2F_SW_NO_ERROR, w)
  else some (U2F_SW_INS_NOT_SUPPORTED, w)

/-- The local `len` of `u2f_request`: `LC3 | LC2 << 8 | LC1 << 16`. -/
def request_len (req : u2f_request_apdu) : Nat :=
  req.LC3 ||| (req.LC2 <<< 8) ||| (req.LC1 <<< 16)

/-- The part of `u2f_request` before the label `end`: the status word and the
state with which the label is reached. -/
def u2f_request_rcode (env : Env) (req : u2f_request_apdu)
    (resp : CTAP_RESPONSE) (w : World) : Option (Nat × World) :=
  let rcode : Nat := 0
  let len := request_len req
  let w := u2f_set_writeback_buffer w resp
  if req.cla ≠ 0 then some (U2F_SW_CLASS_NOT_SUPPORTED, w)
  else
    let (rcode, w) :=
      match env.extend_u2f with
      | some hook => let (c, w) := hook req len w; (c % 2 ^ 16, w)
      | none => (rcode, w)
    if rcode ≠ U2F_SW_NO_ERROR then
      if env.ENABLE_U2F then u2f_request_switch env req len w
      else some (rcode, w)
    else some (rcode, w)

/-- The part of `u2f_request` from the label `end`: an error status resets the
response, then the two status bytes are appended, high byte first. -/
def u2f_request_end (rcode : Nat) (w : World) : Option World :=
  let w := if rcode ≠ U2F_SW_NO_ERROR then u2f_reset_response w else w
  (u2f_response_writeback w [(rcode &&& 0xff00) >>> 8] 1).bind fun w =>
  u2f_response_writeback w [rcode &&& 0xff] 1

/-- `u2f_request(req, resp)`: the state after the call, `none` when the
response writer aborted. -/
def u2f_request (env : Env) (req : u2f_request_apdu) (resp : CTAP_RESPONSE)
    (w : World) : Option World :=
  (u2f_request_rcode env req resp w).bind fun p => u2f_request_end p.1 p.2

/-! ## Sequences of requests -/

/-- A build with `ENABLE_U2F` and without extensions, a 48-byte key and a
16-byte tag, and toy crypto whose outputs depend on their inputs. -/
def demoEnv : Env :=
  { U2F_KEY_HANDLE_KEY_SIZE := 48
    U2F_KEY_HANDLE_TAG_SIZE := 16
    ENABLE_U2F := true
    extend_u2f := none
    CRYPTO_MASTER_KEY := [1, 2, 3, 4]
    crypto_sha256 := fun m => ⟨List.replicate 32 (m.sum % 256), by simp⟩
    crypto_sha256_hmac := fun k m =>
      ⟨List.replicate 32 ((k.sum + m.sum) % 256), by simp⟩
    crypto_ecc256_derive_public_key := fun d =>
      (⟨List.replicate 32 (d.sum % 256), by simp⟩,
        ⟨List.replicate 32 ((d.sum + 1) % 256), by simp⟩)
    crypto_ecc256_sign := fun n _ h =>
      ⟨List.replicate 64 ((n + h.sum) % 256), by simp⟩
    ctap_encode_der_sig := fun s => ⟨0x30 :: s.take 8, by simp⟩
    attestation_cert_der := [0x30, 0x82, 0x01, 0x00]
    ctap_user_presence_test := fun _ => 1
    ctap_generate_rng := fun i => (7 * i + 3) % 256 }

/-- An empty response buffer of 1024 bytes. -/
def demoResp : CTAP_RESPONSE :=
  { data := fun _ => 0, data_size := 1024, length := 0 }

/-- A response buffer of 1024 bytes that still holds three bytes. -/
def usedResp : CTAP_RESPONSE :=
  { data := fun _ => 0xaa, data_size := 1024, length := 3 }

/-- A device whose counter stands at 25 and that has done nothing yet. -/
def demoWorld : World :=
  { _u2f_resp := demoResp
    counter := 25
    rng_pos := 0
    up_tests := 0
    ecc_key := EccKey.unloaded
    signed := [] }

/-- The APDU `01 03 00 00 00 00 00` of scenario S2. -/
def badClassReq : u2f_request_apdu :=
  { cla := 1, ins := 3, p1 := 0, p2 := 0, LC1 := 0, LC2 := 0, LC3 := 0
    payload := fun _ => 0 }

/-- The APDU `00 03 00 00 00 00 00` of scenario S1. -/
def versionReq : u2f_request_apdu :=
  { cla := 0, ins := 3, p1 := 0, p2 := 0, LC1 := 0, LC2 := 0, LC3 := 0
    payload := fun _ => 0 }

/-- A REGISTER header whose length bytes are `01 00 40`: the low byte is 64,
the length is 65600. -/
def longRegisterReq : u2f_request_apdu :=
  { cla := 0, ins := 1, p1 := 0, p2 := 0, LC1 := 1, LC2 := 0, LC3 := 64
    payload := fun _ => 0xaa }

/-- A REGISTER request of 64 bytes: challenge `aa … aa`, application
identifier `01 02 … 20`. -/
def registerReq : u2f_request_apdu :=
  { cla := 0, ins := 1, p1 := 0, p2 := 0, LC1 := 0, LC2 := 0, LC3 := 64
    payload := fun i => if i < 32 then 0xaa else (i - 31) % 256 }

/-- The handle a REGISTER on `demoWorld` mints for the application identifier
of `registerReq`: 48 RNG bytes, then the 16-byte tag. -/
def demoHandle : List Nat :=
  let key := slice demoEnv.ctap_generate_rng 0 48
  key ++ (demoEnv.crypto_sha256_hmac demoEnv.CRYPTO_MASTER_KEY
    (key ++ slice registerReq.payload 32 32)).val.take 16

/-- A check-only AUTHENTICATE request presenting `demoHandle` with the
application identifier of `registerReq` and the handle length 64. -/
def checkReq : u2f_request_apdu :=
  { cla := 0, ins := 2, p1 := 7, p2 := 0, LC1 := 0, LC2 := 0, LC3 := 129
    payload := fun i =>
      if i < 64 then registerReq.payload i
      else if i = 64 then 64
      else demoHandle.getD (i - 65) 0 }

/-- The request `checkReq` with the handle length byte set to 0. -/
def checkReqNoLength : u2f_request_apdu :=
  { checkReq with
    payload := fun i => if i = 64 then 0 else checkReq.payload i }

/-- The request `checkReq` with the first two bytes of the application
identifier exchanged: another identifier with the same toy HMAC. -/
def swappedAppReq : u2f_request_apdu :=
  { checkReq with
    payload := fun i =>
      if i = 32 then 2 else if i = 33 then 1 else checkReq.payload i }

/-- The request `checkReq` with the first byte of the application identifier
changed to 9: an identifier for which the handle does not verify. -/
def otherAppReq : u2f_request_apdu :=
  { checkReq with
    payload := fun i => if i = 32 then 9 else checkReq.payload i }

/-- The request `checkReq` in SIGN mode: `p1 = 03`, handle length 64, the
handle `demoHandle` with the application identifier it was minted for. -/
def signReq : u2f_request_apdu :=
  { checkReq with p1 := 3 }

/-- The request `signReq` with the last tag byte of the handle changed. -/
def tamperedSignReq : u2f_request_apdu :=
  { signReq with
    payload := fun i => if i = 128 then (signReq.payload 128 + 1) % 256
      else signReq.payload i }

/-- A device on which every presence test fails; otherwise `demoEnv`. -/
def absentEnv : Env :=
  { demoEnv with ctap_user_presence_test := fun _ => 0 }

/-- A request of class 0 whose instruction `41` lies inside the vendor range
`40 … BF`. -/
def vendorInsideReq : u2f_request_apdu :=
  { cla := 0, ins := 0x41, p1 := 0, p2 := 0, LC1 := 0, LC2 := 0, LC3 := 0
    payload := fun _ => 0 }

/-- A request of class 0 whose instruction `04` is not supported. -/
def unknownInsReq : u2f_request_apdu :=
  { cla := 0, ins := 0x04, p1 := 0, p2 := 0, LC1 := 0, LC2 := 0, LC3 := 0
    payload := fun _ => 0 }

/-- The request `checkReq` with all three length bytes zero. -/
def checkReqZeroLc : u2f_request_apdu :=
  { checkReq with LC1 := 0, LC2 := 0, LC3 := 0 }

theorem slice_length (p : Nat → Nat) (off n : Nat) : (slice p off n).length = n := by
  simp [slice]

theorem take_slice (p : Nat → Nat) (off n : Nat) : (slice p off n).take n = slice p off n :=
  List.take_of_length_le (by simp [slice])

theorem map_getD_range (buf : List Nat) (len : Nat) (hlen : len ≤ buf.length) :
    (List.range len).map (fun i => buf.getD i 0) = buf.take len := by
  apply List.ext_getElem
  · simp [hlen]
  · intro i h1 h2
    simp at h1
    simp [List.getD_eq_getElem?_getD, List.getElem?_eq_getElem (show i < buf.length by omega)]

/-- A write of `len` bytes appends the first `len` bytes of the source to the
bytes of the response. -/
theorem bytes_write (r : CTAP_RESPONSE) (buf : List Nat) (len : Nat)
    (hlen : len ≤ buf.length) :
    CTAP_RESPONSE.bytes
      { r with
        data := fun i =>
          if r.length ≤ i ∧ i < r.length + len then buf.getD (i - r.length) 0
          else r.data i
        length := r.length + len } = r.bytes ++ buf.take len := by
  unfold CTAP_RESPONSE.bytes slice
  simp only [List.range_add, List.map_append, List.map_map]
  congr 1
  · apply List.map_congr_left
    intro i hi
    have : i < r.length := List.mem_range.mp hi
    simp [this]
  · rw [← map_getD_range buf len hlen]
    apply List.map_congr_left
    intro i hi
    have : i < len := List.mem_range.mp hi
    simp [this]

@[simp] theorem withResp_resp (w : World) (r : CTAP_RESPONSE) :
    (w.withResp r)._u2f_resp = r := rfl

@[simp] theorem withResp_withResp (w : World) (r r2 : CTAP_RESPONSE) :
    (w.withResp r).withResp r2 = w.withResp r2 := rfl

@[simp] theorem withResp_rng_pos (w : World) (r : CTAP_RESPONSE) :
    (w.withResp r).rng_pos = w.rng_pos := rfl

@[simp] theorem withResp_up_tests (w : World) (r : CTAP_RESPONSE) :
    (w.withResp r).up_tests = w.up_tests := rfl

@[simp] theorem withResp_ecc_key (w : World) (r : CTAP_RESPONSE) :
    (w.withResp r).ecc_key = w.ecc_key := rfl

@[simp] theorem withResp_signed (w : World) (r : CTAP_RESPONSE) :
    (w.withResp r).signed = w.signed := rfl

@[simp] theorem written_length (r : CTAP_RESPONSE) (buf : List Nat) (len : Nat) :
    (r.written buf len).length = r.length + len := rfl

@[simp] theorem written_data_size (r : CTAP_RESPONSE) (buf : List Nat) (len : Nat) :
    (r.written buf len).data_size = r.data_size := rfl

theorem written_bytes (r : CTAP_RESPONSE) (buf : List Nat) (len : Nat)
    (hlen : len ≤ buf.length) :
    (r.written buf len).bytes = r.bytes ++ buf.take len :=
  bytes_write r buf len hlen

/-- A write that fits succeeds and touches only the response buffer. -/
theorem writeback_eq (w : World) (buf : List Nat) (len : Nat)
    (hfit : w._u2f_resp.length + len ≤ w._u2f_resp.data_size) :
    u2f_response_writeback w buf len
      = some (w.withResp (w._u2f_resp.written buf len)) := by
  unfold u2f_response_writeback
  simp [Nat.not_lt.mpr hfit, World.withResp, CTAP_RESPONSE.written]

/-- A write that fits, followed by the rest of the handler. -/
theorem writeback_bind {α : Type} (w : World) (buf : List Nat) (len : Nat)
    (f : World → Option α)
    (hfit : w._u2f_resp.length + len ≤ w._u2f_resp.data_size) :
    (u2f_response_writeback w buf len).bind f
      = f (w.withResp (w._u2f_resp.written buf len)) := by
  rw [writeback_eq w buf len hfit, Option.some_bind]

/-- A write that fits succeeds, touches only the response buffer, appends the
bytes and keeps the capacity. -/
theorem writeback_fits (w : World) (buf : List Nat) (len : Nat)
    (hlen : len ≤ buf.length)
    (hfit : w._u2f_resp.length + len ≤ w._u2f_resp.data_size) :
    ∃ r, u2f_response_writeback w buf len = some (w.withResp r)
      ∧ r.bytes = w._u2f_resp.bytes ++ buf.take len
      ∧ r.data_size = w._u2f_resp.data_size
      ∧ r.length = w._u2f_resp.length + len :=
  ⟨_, writeback_eq w buf len hfit, written_bytes _ buf len hlen, rfl, rfl⟩

/-- A write that does not fit aborts. -/
theorem writeback_aborts (w : World) (buf : List Nat) (len : Nat)
    (hfit : w._u2f_resp.data_size < w._u2f_resp.length + len) :
    u2f_response_writeback w buf len = none := by
  unfold u2f_response_writeback
  simp [hfit]

/-! ## Lemmas on the dispatcher -/

theorem reset_eq (w : World) :
    u2f_reset_response w = w.withResp (ctap_response_init w._u2f_resp) := rfl

/-- From the label `end` with an error status: the response is reset and holds
the two status bytes only. -/
theorem request_end_error (rcode : Nat) (w : World) (hne : rcode ≠ U2F_SW_NO_ERROR)
    (hcap : 2 ≤ w._u2f_resp.data_size) :
    ∃ r, u2f_request_end rcode w = some (w.withResp r)
      ∧ r.bytes = [(rcode &&& 0xff00) >>> 8, rcode &&& 0xff] := by
  obtain ⟨r1, h1, b1, c1, l1⟩ := writeback_fits
    (w.withResp (ctap_response_init w._u2f_resp))
    [(rcode &&& 0xff00) >>> 8] 1 (by simp)
    (by simp [ctap_response_init]; omega)
  obtain ⟨r2, h2, b2, -, -⟩ := writeback_fits
    (w.withResp r1) [rcode &&& 0xff] 1 (by simp)
    (by simp [l1, c1, ctap_response_init]; omega)
  refine ⟨r2, ?_, ?_⟩
  · simp only [u2f_request_end, hne, ne_eq, not_false_eq_true, if_true, reset_eq, h1,
      Option.some_bind, Option.bind_some, h2, withResp_withResp]
  · simp only [b2, b1, withResp_resp]
    simp [ctap_response_init, CTAP_RESPONSE.bytes, slice]

/-- From the label `end` with `NO_ERROR`: the two status bytes follow the data
already written. -/
theorem request_end_ok (w : World)
    (hcap : w._u2f_resp.length + 2 ≤ w._u2f_resp.data_size) :
    ∃ r, u2f_request_end U2F_SW_NO_ERROR w = some (w.withResp r)
      ∧ r.bytes = w._u2f_resp.bytes ++ [0x90, 0x00] := by
  obtain ⟨r1, h1, b1, c1, l1⟩ := writeback_fits w
    [(U2F_SW_NO_ERROR &&& 0xff00) >>> 8] 1 (by simp) (by omega)
  obtain ⟨r2, h2, b2, -, -⟩ := writeback_fits
    (w.withResp r1) [U2F_SW_NO_ERROR &&& 0xff] 1 (by simp)
    (by simp only [l1, c1, withResp_resp]; omega)
  refine ⟨r2, ?_, ?_⟩
  · simp only [u2f_request_end, ne_eq, not_true_eq_false, if_false, h1,
      Option.some_bind, Option.bind_some, h2, withResp_withResp]
  · simp only [b2, b1, withResp_resp]
    have e1 : (U2F_SW_NO_ERROR &&& 0xff00) >>> 8 = 0x90 := by decide
    have e2 : U2F_SW_NO_ERROR &&& 0xff = 0x00 := by decide
    simp [e1, e2]

/-- With class 0, `ENABLE_U2F` and no extension hook, the status word is the one
the `switch` computes on the bound buffer. -/
theorem rcode_switch (env : Env) (req : u2f_request_apdu) (resp : CTAP_RESPONSE)
    (w : World) (hu2f : env.ENABLE_U2F = true) (hext : env.extend_u2f = none)
    (hcla : req.cla = 0) :
    u2f_request_rcode env req resp w
      = u2f_request_switch env req (request_len req) (w.withResp resp) := by
  unfold u2f_request_rcode
  simp [hcla, hext, hu2f, U2F_SW_NO_ERROR]
  rfl

theorem bytes_of_length_zero (r : CTAP_RESPONSE) (h : r.length = 0) : r.bytes = [] := by
  simp [CTAP_RESPONSE.bytes, slice, h]

theorem lt_of_or_lt (x y k : Nat) (h : x ||| y < 2 ^ k) : x < 2 ^ k ∧ y < 2 ^ k := by
  have key : ∀ i, i ≥ k → (x.testBit i = false ∧ y.testBit i = false) := by
    intro i hi
    have hlt : x ||| y < 2 ^ i :=
      lt_of_lt_of_le h (Nat.pow_le_pow_right (by decide) hi)
    have := Nat.testBit_lt_two_pow hlt
    simpa [Nat.testBit_or] using this
  exact ⟨Nat.lt_pow_two_of_testBit x fun i hi => (key i hi).1,
    Nat.lt_pow_two_of_testBit y fun i hi => (key i hi).2⟩

/-- A length of 64 has both high length bytes zero. -/
theorem request_len_eq_64 (req : u2f_request_apdu) (h : request_len req = 64) :
    req.LC1 = 0 ∧ req.LC2 = 0 := by
  unfold request_len at h
  have h7 : (req.LC3 ||| req.LC2 <<< 8) ||| req.LC1 <<< 16 < 2 ^ 7 := by
    rw [h]; decide
  obtain ⟨ha, hb⟩ := lt_of_or_lt _ _ _ h7
  obtain ⟨-, hc⟩ := lt_of_or_lt _ _ _ ha
  rw [Nat.shiftLeft_eq] at hb hc
  constructor <;> omega

/-- `u2f_version` on a buffer with six free bytes appends `U2F_V2` and answers
`NO_ERROR`. -/
theorem version_fits (w : World)
    (hfit : w._u2f_resp.length + 6 ≤ w._u2f_resp.data_size) :
    ∃ r, u2f_version w = some (U2F_SW_NO_ERROR, w.withResp r)
      ∧ r.bytes = w._u2f_resp.bytes ++ [0x55, 0x32, 0x46, 0x5f, 0x56, 0x32]
      ∧ r.data_size = w._u2f_resp.data_size
      ∧ r.length = w._u2f_resp.length + 6 := by
  obtain ⟨r, h, b, c, l⟩ := writeback_fits w
    [0x55, 0x32, 0x46, 0x5f, 0x56, 0x32, 0x00] 6 (by simp) hfit
  refine ⟨r, ?_, ?_, c, l⟩
  · unfold u2f_version
    simp only [List.length_cons, List.length_nil, Nat.reduceAdd, Nat.add_one_sub_one, h,
      Option.some_bind]
  · rw [b]; rfl

/-! ## Lemmas on the handlers -/

/-- What `u2f_new_keypair` returns: status 0, a handle whose key is the next
`U2F_KEY_HANDLE_KEY_SIZE` bytes of the RNG and whose tag is the truncated HMAC
of key and application identifier, and the public key derived from it. -/
theorem new_keypair_eq (env : Env) (payload : Nat → Nat) (w : World)
    (htag : env.U2F_KEY_HANDLE_TAG_SIZE ≤ 32) :
    let key := slice env.ctap_generate_rng w.rng_pos env.U2F_KEY_HANDLE_KEY_SIZE
    let tag := (env.crypto_sha256_hmac env.CRYPTO_MASTER_KEY
      (key ++ slice payload 32 32)).val.take env.U2F_KEY_HANDLE_TAG_SIZE
    let xy := env.crypto_ecc256_derive_public_key (key ++ tag)
    u2f_new_keypair env (slice payload 32 32) w
      = (0, { key := key, tag := tag }, xy.1.val ++ xy.2.val,
          { w with rng_pos := w.rng_pos + env.U2F_KEY_HANDLE_KEY_SIZE })
      ∧ tag.length = env.U2F_KEY_HANDLE_TAG_SIZE := by
  intro key tag xy
  have hk : key.length = env.U2F_KEY_HANDLE_KEY_SIZE := slice_length _ _ _
  have ht : tag.length = env.U2F_KEY_HANDLE_TAG_SIZE := by
    simp only [tag, List.length_take, (env.crypto_sha256_hmac _ _).property]
    omega
  refine ⟨?_, ht⟩
  have e1 : key.take env.U2F_KEY_HANDLE_KEY_SIZE = key := take_slice _ _ _
  have e2 : (slice payload 32 32).take U2F_APPLICATION_SIZE = slice payload 32 32 :=
    take_slice _ _ _
  have e3 : (key ++ tag).take (U2F_KEY_HANDLE_SIZE env) = key ++ tag :=
    List.take_of_length_le (by simp [U2F_KEY_HANDLE_SIZE, hk, ht])
  simp only [u2f_new_keypair, ctap_generate_rng, u2f_make_auth_tag,
    CREDENTIAL_TAG_SIZE, u2f_key_handle.raw]
  rw [e1, e2, e3]

/-- `u2f_register` when the presence test passes and the response fits: the
status is `NO_ERROR`, the attestation key is loaded and used for one signature
of the attestation hash, and the buffer receives `05 04`, the public key, the
handle length, the handle, the certificate and the DER signature. -/
theorem register_present (env : Env) (payload : Nat → Nat) (w : World)
    (htag : env.U2F_KEY_HANDLE_TAG_SIZE ≤ 32)
    (hup : env.ctap_user_presence_test w.up_tests ≠ 0)
    (hfit : w._u2f_resp.length + (2 + 64 + 1 + U2F_KEY_HANDLE_SIZE env
        + attestation_cert_der_size env % 2 ^ 16 + 72) ≤ w._u2f_resp.data_size) :
    let key := slice env.ctap_generate_rng w.rng_pos env.U2F_KEY_HANDLE_KEY_SIZE
    let tag := (env.crypto_sha256_hmac env.CRYPTO_MASTER_KEY
      (key ++ slice payload 32 32)).val.take env.U2F_KEY_HANDLE_TAG_SIZE
    let xy := env.crypto_ecc256_derive_public_key (key ++ tag)
    let hash := (env.crypto_sha256 ([0x00] ++ slice payload 32 32
      ++ slice payload 0 32 ++ (key ++ tag) ++ [0x04]
      ++ (xy.1.val ++ xy.2.val))).val
    let sig := (env.crypto_ecc256_sign w.signed.length EccKey.attestation hash).val
    ∃ r, u2f_register env (as_register_request payload) w
        = some (U2F_SW_NO_ERROR,
            { _u2f_resp := r
              counter := w.counter
              rng_pos := w.rng_pos + env.U2F_KEY_HANDLE_KEY_SIZE
              up_tests := w.up_tests + 1
              ecc_key := EccKey.attestation
              signed := w.signed ++ [(EccKey.attestation, hash)] })
      ∧ r.bytes = w._u2f_resp.bytes ++ ([0x05, 0x04] ++ (xy.1.val ++ xy.2.val)
          ++ [U2F_KEY_HANDLE_SIZE env % 256] ++ (key ++ tag)
          ++ env.attestation_cert_der.take (attestation_cert_der_size env % 2 ^ 16)
          ++ (env.ctap_encode_der_sig sig).val)
      ∧ r.data_size = w._u2f_resp.data_size
      ∧ r.length ≤ w._u2f_resp.length + (2 + 64 + 1 + U2F_KEY_HANDLE_SIZE env
          + attestation_cert_der_size env % 2 ^ 16 + 72) := by
  intro key tag xy hash sig
  obtain ⟨hnk, htl⟩ := new_keypair_eq env payload
    { w with up_tests := w.up_tests + 1 } htag
  have hkl : key.length = env.U2F_KEY_HANDLE_KEY_SIZE := slice_length _ _ _
  have hxy : (xy.1.val ++ xy.2.val).length = 64 := by
    simp [xy.1.property, xy.2.property]
  have hraw : (key ++ tag).length = U2F_KEY_HANDLE_SIZE env := by
    simp only [List.length_append, hkl, U2F_KEY_HANDLE_SIZE]
    exact congrArg _ htl
  have e3 : (key ++ tag).take (U2F_KEY_HANDLE_SIZE env) = key ++ tag :=
    List.take_of_length_le (by omega)
  have e4 : (xy.1.val ++ xy.2.val).take 64 = xy.1.val ++ xy.2.val :=
    List.take_of_length_le (by omega)
  have hder := (env.ctap_encode_der_sig sig).property
  have hcert : attestation_cert_der_size env % 2 ^ 16 ≤ env.attestation_cert_der.length :=
    Nat.mod_le _ _
  have hne : ¬ ((0 : Int) = -1) := by decide
  unfold u2f_register
  simp only [ctap_user_presence_test, hup, as_register_request, if_false, hnk, hne,
    crypto_ecc256_sign, crypto_ecc256_load_attestation_key, dump_signature_der,
    u2f_key_handle.raw, U2F_EC_FMT_UNCOMPRESSED, List.take_succ_cons, List.take_zero,
    List.drop_succ_cons, List.drop_zero, List.set_cons_zero]
  have fk : slice env.ctap_generate_rng w.rng_pos env.U2F_KEY_HANDLE_KEY_SIZE = key := rfl
  simp only [fk]
  have ft : List.take env.U2F_KEY_HANDLE_TAG_SIZE
      (env.crypto_sha256_hmac env.CRYPTO_MASTER_KEY (key ++ slice payload 32 32)).val
        = tag := rfl
  simp only [ft]
  have fxy : env.crypto_ecc256_derive_public_key (key ++ tag) = xy := rfl
  simp only [fxy, e3, e4]
  have fh : (env.crypto_sha256 ([0x00] ++ slice payload 32 32
      ++ slice payload 0 32 ++ (key ++ tag) ++ [0x04]
      ++ (xy.1.val ++ xy.2.val))).val = hash := rfl
  simp only [fh]
  have fs : (env.crypto_ecc256_sign w.signed.length EccKey.attestation hash).val = sig := rfl
  simp only [fs]
  have hw : ∀ (r : CTAP_RESPONSE) (c n u : Nat) (k : EccKey)
      (sg : List (EccKey × List Nat)),
      (World.mk r c n u k sg)._u2f_resp = r := fun _ _ _ _ _ _ => rfl
  rw [writeback_bind]
  simp only [withResp_resp, withResp_withResp, hw]
  rw [writeback_bind]
  simp only [withResp_resp, withResp_withResp, hw]
  rw [writeback_bind]
  simp only [withResp_resp, withResp_withResp, hw]
  rw [writeback_bind]
  simp only [withResp_resp, withResp_withResp, hw]
  rw [writeback_bind]
  simp only [withResp_resp, withResp_withResp, hw]
  rw [writeback_bind]
  simp only [withResp_resp, withResp_withResp, hw]
  · refine ⟨_, rfl, ?_, rfl, ?_⟩
    · rw [written_bytes _ _ _ (Nat.le_refl _), written_bytes _ _ _ hcert,
        written_bytes _ _ _ (by omega), written_bytes _ _ _ (by simp),
        written_bytes _ _ _ (by omega), written_bytes _ _ _ (by simp)]
      simp only [e3, e4, List.take_length, List.take_succ_cons, List.take_zero,
        List.append_assoc]
    · simp only [written_length]
      omega
  all_goals simp only [withResp_resp, withResp_withResp, hw, written_length,
    written_data_size]
  all_goals omega

/-- `u2f_register` when the presence test fails: the status is
`CONDITIONS_NOT_SATISFIED` and only the presence test was made. -/
theorem register_absent (env : Env) (req : u2f_register_request) (w : World)
    (hup : env.ctap_user_presence_test w.up_tests = 0) :
    u2f_register env req w
      = some (U2F_SW_CONDITIONS_NOT_SATISFIED,
          { w with up_tests := w.up_tests + 1 }) := by
  unfold u2f_register
  simp only [ctap_user_presence_test, hup, if_true]

/-- `u2f_register` when the presence test passes and the response fits returns
`NO_ERROR`; the capacity is kept and the length grows by at most the size of
the largest register response. -/
theorem register_total (env : Env) (req : u2f_register_request) (w : World)
    (hup : env.ctap_user_presence_test w.up_tests ≠ 0)
    (hfit : w._u2f_resp.length + (2 + 64 + 1 + U2F_KEY_HANDLE_SIZE env
        + attestation_cert_der_size env % 2 ^ 16 + 72) ≤ w._u2f_resp.data_size) :
    ∃ w1, u2f_register env req w = some (U2F_SW_NO_ERROR, w1)
      ∧ w1._u2f_resp.data_size = w._u2f_resp.data_size
      ∧ w1._u2f_resp.length ≤ w._u2f_resp.length + (2 + 64 + 1
          + U2F_KEY_HANDLE_SIZE env + attestation_cert_der_size env % 2 ^ 16 + 72) := by
  have hne : ¬ ((0 : Int) = -1) := by decide
  have hw : ∀ (r : CTAP_RESPONSE) (c n u : Nat) (k : EccKey)
      (sg : List (EccKey × List Nat)),
      (World.mk r c n u k sg)._u2f_resp = r := fun _ _ _ _ _ _ => rfl
  unfold u2f_register
  simp only [ctap_user_presence_test, hup, if_false, u2f_new_keypair, hne,
    ctap_generate_rng, crypto_ecc256_sign, crypto_ecc256_load_attestation_key,
    dump_signature_der]
  generalize hsig : env.ctap_encode_der_sig _ = sigder
  have hder := sigder.property
  rw [writeback_bind]
  simp only [withResp_resp, withResp_withResp, hw]
  rw [writeback_bind]
  simp only [withResp_resp, withResp_withResp, hw]
  rw [writeback_bind]
  simp only [withResp_resp, withResp_withResp, hw]
  rw [writeback_bind]
  simp only [withResp_resp, withResp_withResp, hw]
  rw [writeback_bind]
  simp only [withResp_resp, withResp_withResp, hw]
  rw [writeback_bind]
  simp only [withResp_resp, withResp_withResp, hw]
  · refine ⟨_, rfl, rfl, ?_⟩
    simp only [withResp_resp, written_length]
    omega
  all_goals simp only [withResp_resp, withResp_withResp, hw, written_length,
    written_data_size]
  all_goals omega

/-- `u2f_authenticate` in check-only mode: `CONDITIONS_NOT_SATISFIED` when the
tag verifies, `WRONG_DATA` otherwise, and the state is untouched. -/
theorem authenticate_check (env : Env) (req : u2f_authenticate_request)
    (w : World) :
    u2f_authenticate env req U2F_AUTHENTICATE_CHECK w
      = some (if u2f_appid_eq env req.kh req.app = 0
          then U2F_SW_CONDITIONS_NOT_SATISFIED else U2F_SW_WRONG_DATA, w) := by
  unfold u2f_authenticate
  by_cases h : u2f_appid_eq env req.kh req.app = 0 <;> simp [h]

/-- `u2f_authenticate` outside check-only mode rejects with `WRONG_PAYLOAD`,
leaving the state untouched, when the control byte is not SIGN, or the handle
length is wrong, or the tag does not verify. -/
theorem authenticate_reject (env : Env) (req : u2f_authenticate_request)
    (control : Nat) (w : World) (hc : control ≠ U2F_AUTHENTICATE_CHECK)
    (h : control ≠ U2F_AUTHENTICATE_SIGN ∨ req.khl ≠ U2F_KEY_HANDLE_SIZE env
      ∨ u2f_appid_eq env req.kh req.app ≠ 0) :
    u2f_authenticate env req control w = some (U2F_SW_WRONG_PAYLOAD, w) := by
  unfold u2f_authenticate
  simp only [hc, if_false, ne_eq]
  by_cases h1 : control = U2F_AUTHENTICATE_SIGN
  · by_cases h2 : req.khl = U2F_KEY_HANDLE_SIZE env
    · have h3 : ¬ u2f_appid_eq env req.kh req.app = 0 := by
        rcases h with h | h | h
        · exact absurd h1 h
        · exact absurd h2 h
        · exact h
      simp [h1, h2, h3]
    · simp [h1, h2]
  · simp [h1]

/-- `u2f_authenticate` in SIGN mode with a verifying handle, when the presence
test fails: the handle is loaded, the presence test is made, the status is
`CONDITIONS_NOT_SATISFIED`; counter, response and signatures are untouched. -/
theorem authenticate_absent (env : Env) (req : u2f_authenticate_request)
    (w : World) (hkhl : req.khl = U2F_KEY_HANDLE_SIZE env)
    (hver : u2f_appid_eq env req.kh req.app = 0)
    (hup : env.ctap_user_presence_test w.up_tests = 0) :
    u2f_authenticate env req U2F_AUTHENTICATE_SIGN w
      = some (U2F_SW_CONDITIONS_NOT_SATISFIED,
          { w with
            ecc_key := EccKey.handle (req.kh.raw.take (U2F_KEY_HANDLE_SIZE env))
            up_tests := w.up_tests + 1 }) := by
  have hc : ¬ U2F_AUTHENTICATE_SIGN = U2F_AUTHENTICATE_CHECK := by decide
  unfold u2f_authenticate
  simp only [hc, if_false, ne_eq, not_true_eq_false, hkhl, hver, u2f_load_key,
    crypto_ecc256_load_key, ctap_user_presence_test, hup, if_true]

/-- `u2f_authenticate` in SIGN mode with a verifying handle, a passing presence
test and room in the buffer: the handle is loaded as the key, the counter is
incremented once, the hash of `app ‖ 01 ‖ count ‖ chal` is signed with that
key, and the buffer receives `01`, the counter bytes and the DER signature. -/
theorem authenticate_sign (env : Env) (req : u2f_authenticate_request)
    (w : World) (hkhl : req.khl = U2F_KEY_HANDLE_SIZE env)
    (hver : u2f_appid_eq env req.kh req.app = 0)
    (hup : env.ctap_user_presence_test w.up_tests ≠ 0)
    (hfit : w._u2f_resp.length + (1 + 4 + 72) ≤ w._u2f_resp.data_size) :
    let count := (w.counter + 1) % 2 ^ 32
    let key := EccKey.handle (req.kh.raw.take (U2F_KEY_HANDLE_SIZE env))
    let hash := (env.crypto_sha256
      (req.app ++ [0x01] ++ count_bytes count ++ req.chal)).val
    let sig := (env.crypto_ecc256_sign w.signed.length key hash).val
    ∃ r, u2f_authenticate env req U2F_AUTHENTICATE_SIGN w
        = some (U2F_SW_NO_ERROR,
            { _u2f_resp := r
              counter := count
              rng_pos := w.rng_pos
              up_tests := w.up_tests + 1
              ecc_key := key
              signed := w.signed ++ [(key, hash)] })
      ∧ r.bytes = w._u2f_resp.bytes
          ++ ([0x01] ++ count_bytes count ++ (env.ctap_encode_der_sig sig).val)
      ∧ r.data_size = w._u2f_resp.data_size
      ∧ r.length ≤ w._u2f_resp.length + (1 + 4 + 72) := by
  intro count key hash sig
  have hc : ¬ U2F_AUTHENTICATE_SIGN = U2F_AUTHENTICATE_CHECK := by decide
  have hw : ∀ (r : CTAP_RESPONSE) (c n u : Nat) (k : EccKey)
      (sg : List (EccKey × List Nat)),
      (World.mk r c n u k sg)._u2f_resp = r := fun _ _ _ _ _ _ => rfl
  have hder := (env.ctap_encode_der_sig sig).property
  have hcb : (count_bytes count).length = 4 := rfl
  unfold u2f_authenticate
  simp only [hc, if_false, ne_eq, not_true_eq_false, hkhl, hver, u2f_load_key,
    crypto_ecc256_load_key, ctap_user_presence_test, hup, ctap_atomic_count,
    crypto_ecc256_sign, dump_signature_der]
  have fc : (w.counter + 1) % 2 ^ 32 = count := rfl
  have fk : EccKey.handle (req.kh.raw.take (U2F_KEY_HANDLE_SIZE env)) = key := rfl
  simp only [fc, fk]
  have fh : (env.crypto_sha256
      (req.app ++ [0x01] ++ count_bytes count ++ req.chal)).val = hash := rfl
  simp only [fh]
  have fs : (env.crypto_ecc256_sign w.signed.length key hash).val = sig := rfl
  simp only [fs]
  have e4 : (count_bytes count).take 4 = count_bytes count := rfl
  rw [writeback_bind]
  simp only [withResp_resp, withResp_withResp, hw]
  rw [writeback_bind]
  simp only [withResp_resp, withResp_withResp, hw]
  rw [writeback_bind]
  simp only [withResp_resp, withResp_withResp, hw]
  · refine ⟨_, rfl, ?_, rfl, ?_⟩
    · rw [written_bytes _ _ _ (Nat.le_refl _), written_bytes _ _ _ (by simp [count_bytes]),
        written_bytes _ _ _ (by simp)]
      simp only [e4, List.take_length, List.take_succ_cons, List.take_zero,
        List.append_assoc]
    · simp only [written_length]
      omega
  all_goals simp only [withResp_resp, withResp_withResp, hw, written_length,
    written_data_size]
  all_goals omega

/-- With enough room for the largest response and its status word, the `switch`
always returns: the status is a 16-bit word, the capacity is kept, and after
`NO_ERROR` two bytes are still free. -/
theorem switch_total (env : Env) (req : u2f_request_apdu) (len : Nat) (w : World)
    (hfit : w._u2f_resp.length + (2 + 64 + 1 + U2F_KEY_HANDLE_SIZE env
        + attestation_cert_der_size env % 2 ^ 16 + 72) + 2 ≤ w._u2f_resp.data_size) :
    ∃ rcode w1, u2f_request_switch env req len w = some (rcode, w1)
      ∧ rcode < 2 ^ 16
      ∧ w1._u2f_resp.data_size = w._u2f_resp.data_size
      ∧ (rcode = U2F_SW_NO_ERROR
          → w1._u2f_resp.length + 2 ≤ w1._u2f_resp.data_size) := by
  unfold u2f_request_switch
  by_cases hreg : req.ins = U2F_REGISTER
  · simp only [hreg, if_true]
    by_cases hlen : len = 64
    · simp only [hlen, ne_eq, not_true_eq_false, if_false]
      by_cases hup : env.ctap_user_presence_test w.up_tests = 0
      · rw [register_absent env _ w hup]
        exact ⟨_, _, rfl, by decide, rfl, fun h => absurd h (by decide)⟩
      · obtain ⟨w1, h1, c1, l1⟩ := register_total env
          (as_register_request req.payload) w hup (by omega)
        exact ⟨_, _, h1, by decide, c1, fun _ => by omega⟩
    · simp only [hlen, ne_eq, not_false_eq_true, if_true]
      exact ⟨_, _, rfl, by decide, rfl, fun h => absurd h (by decide)⟩
  · simp only [hreg, if_false]
    by_cases hauth : req.ins = U2F_AUTHENTICATE
    · simp only [hauth, if_true]
      by_cases hc : req.p1 = U2F_AUTHENTICATE_CHECK
      · rw [hc, authenticate_check]
        refine ⟨_, _, rfl, ?_, rfl, ?_⟩
        · split <;> decide
        · split <;> intro h <;> exact absurd h (by decide)
      · by_cases hrej : req.p1 ≠ U2F_AUTHENTICATE_SIGN
          ∨ (as_authenticate_request env req.payload).khl ≠ U2F_KEY_HANDLE_SIZE env
          ∨ u2f_appid_eq env (as_authenticate_request env req.payload).kh
              (as_authenticate_request env req.payload).app ≠ 0
        · rw [authenticate_reject env _ _ w hc hrej]
          exact ⟨_, _, rfl, by decide, rfl, fun h => absurd h (by decide)⟩
        · simp only [not_or, ne_eq, not_not] at hrej
          obtain ⟨hs, hk, hv⟩ := hrej
          rw [hs]
          by_cases hup : env.ctap_user_presence_test w.up_tests = 0
          · rw [authenticate_absent env _ w hk hv hup]
            exact ⟨_, _, rfl, by decide, rfl, fun h => absurd h (by decide)⟩
          · obtain ⟨r, h1, -, c1, l1⟩ := authenticate_sign env _ w hk hv hup (by omega)
            refine ⟨_, _, h1, by decide, c1, fun _ => ?_⟩
            show r.length + 2 ≤ r.data_size
            omega
    · simp only [hauth, if_false]
      by_cases hver : req.ins = U2F_VERSION
      · simp only [hver, if_true]
        by_cases hlen : len = 0
        · simp only [hlen, ne_eq, not_true_eq_false, if_false]
          obtain ⟨r, h1, -, c1, l1⟩ := version_fits w (by omega)
          refine ⟨_, _, h1, by decide, c1, fun _ => ?_⟩
          show r.length + 2 ≤ r.data_size
          omega
        · simp only [hlen, ne_eq, not_false_eq_true, if_true]
          exact ⟨_, _, rfl, by decide, rfl, fun h => absurd h (by decide)⟩
      · simp only [hver, if_false]
        by_cases hven : req.ins = U2F_VENDOR_FIRST ∨ req.ins = U2F_VENDOR_LAST
        · simp only [hven, if_true]
          exact ⟨_, _, rfl, by decide, rfl, fun _ => by omega⟩
        · simp only [hven, if_false]
          exact ⟨_, _, rfl, by decide, rfl, fun h => absurd h (by decide)⟩

/-- Without an extension hook and with enough room, the part of `u2f_request`
before the label `end` always returns, as `switch_total` describes. -/
theorem rcode_total (env : Env) (req : u2f_request_apdu) (resp : CTAP_RESPONSE)
    (w : World) (hext : env.extend_u2f = none)
    (hfit : resp.length + (2 + 64 + 1 + U2F_KEY_HANDLE_SIZE env
        + attestation_cert_der_size env % 2 ^ 16 + 72) + 2 ≤ resp.data_size) :
    ∃ rcode w1, u2f_request_rcode env req resp w = some (rcode, w1)
      ∧ rcode < 2 ^ 16
      ∧ w1._u2f_resp.data_size = resp.data_size
      ∧ (rcode = U2F_SW_NO_ERROR
          → w1._u2f_resp.length + 2 ≤ w1._u2f_resp.data_size) := by
  by_cases hcla : req.cla = 0
  · by_cases hu2f : env.ENABLE_U2F = true
    · rw [rcode_switch env req resp w hu2f hext hcla]
      exact switch_total env req _ (w.withResp resp) hfit
    · refine ⟨0, w.withResp resp, ?_, by decide, rfl, fun h => absurd h (by decide)⟩
      unfold u2f_request_rcode
      simp [hcla, hext, hu2f, U2F_SW_NO_ERROR]
      rfl
  · refine ⟨U2F_SW_CLASS_NOT_SUPPORTED, w.withResp resp, ?_, by decide, rfl,
      fun h => absurd h (by decide)⟩
    unfold u2f_request_rcode
    simp [hcla]
    rfl

/-- The two status bytes written at the label `end` are the high and the low
byte of a 16-bit status word. -/
theorem status_bytes (rcode : Nat) (h : rcode < 2 ^ 16) :
    (rcode &&& 0xff00) >>> 8 = rcode / 256 ∧ rcode &&& 0xff = rcode % 256 := by
  constructor
  · have e : rcode / 256 = rcode >>> 8 := by rw [Nat.shiftRight_eq_div_pow]
    rw [e]
    apply Nat.eq_of_testBit_eq
    intro i
    simp only [Nat.testBit_shiftRight, Nat.testBit_and]
    by_cases hi : i < 8
    · have hbit : (0xff00 : Nat).testBit (8 + i) = true := by
        interval_cases i <;> decide
      simp [hbit]
    · have hbit : rcode.testBit (8 + i) = false :=
        Nat.testBit_lt_two_pow
          (lt_of_lt_of_le h (Nat.pow_le_pow_right (by decide) (by omega)))
      simp [hbit]
  · exact Nat.and_pow_two_sub_one_eq_mod rcode 8

/-- Whatever the state and the capacity, a `u2f_register` that returns does not
return `INSUFFICIENT_MEMORY`: `u2f_new_keypair` always reports 0. -/
theorem register_status (env : Env) (req : u2f_register_request) (w w1 : World)
    (rc : Nat) (h : u2f_register env req w = some (rc, w1)) :
    rc = U2F_SW_CONDITIONS_NOT_SATISFIED ∨ rc = U2F_SW_NO_ERROR := by
  have hne : ¬ ((0 : Int) = -1) := by decide
  unfold u2f_register at h
  simp only [ctap_user_presence_test, u2f_new_keypair, ctap_generate_rng, hne,
    if_false] at h
  split at h
  · left
    exact (congrArg Prod.fst (Option.some.inj h)).symm
  · right
    simp only [Option.bind_eq_some] at h
    obtain ⟨_, _, _, _, _, _, _, _, _, _, _, _, h⟩ := h
    exact (congrArg Prod.fst (Option.some.inj h)).symm

/-- A REGISTER request of length 64 with a passing presence test, on an empty
buffer with room: the final state and the final response of `u2f_request`. -/
theorem request_register (env : Env) (req : u2f_request_apdu)
    (resp : CTAP_RESPONSE) (w : World) (hu2f : env.ENABLE_U2F = true)
    (hext : env.extend_u2f = none) (hcla : req.cla = 0)
    (hins : req.ins = U2F_REGISTER) (hlen : request_len req = 64)
    (htag : env.U2F_KEY_HANDLE_TAG_SIZE ≤ 32)
    (hup : env.ctap_user_presence_test w.up_tests ≠ 0)
    (hempty : resp.length = 0)
    (hcap : 2 + 64 + 1 + U2F_KEY_HANDLE_SIZE env
        + attestation_cert_der_size env % 2 ^ 16 + 72 + 2 ≤ resp.data_size) :
    let key := slice env.ctap_generate_rng w.rng_pos env.U2F_KEY_HANDLE_KEY_SIZE
    let tag := (env.crypto_sha256_hmac env.CRYPTO_MASTER_KEY
      (key ++ slice req.payload 32 32)).val.take env.U2F_KEY_HANDLE_TAG_SIZE
    let xy := env.crypto_ecc256_derive_public_key (key ++ tag)
    let hash := (env.crypto_sha256 ([0x00] ++ slice req.payload 32 32
      ++ slice req.payload 0 32 ++ (key ++ tag) ++ [0x04]
      ++ (xy.1.val ++ xy.2.val))).val
    let sig := (env.crypto_ecc256_sign w.signed.length EccKey.attestation hash).val
    ∃ r, u2f_request env req resp w
        = some { _u2f_resp := r
                 counter := w.counter
                 rng_pos := w.rng_pos + env.U2F_KEY_HANDLE_KEY_SIZE
                 up_tests := w.up_tests + 1
                 ecc_key := EccKey.attestation
                 signed := w.signed ++ [(EccKey.attestation, hash)] }
      ∧ r.bytes = [0x05, 0x04] ++ (xy.1.val ++ xy.2.val)
          ++ [U2F_KEY_HANDLE_SIZE env % 256] ++ (key ++ tag)
          ++ env.attestation_cert_der.take (attestation_cert_der_size env % 2 ^ 16)
          ++ (env.ctap_encode_der_sig sig).val ++ [0x90, 0x00] := by
  intro key tag xy hash sig
  obtain ⟨r, h1, b1, c1, l1⟩ := register_present env req.payload
    (w.withResp resp) htag hup (by simp only [withResp_resp]; omega)
  simp only [withResp_resp] at b1 c1 l1
  obtain ⟨r2, h2, b2⟩ := request_end_ok
    { _u2f_resp := r
      counter := w.counter
      rng_pos := w.rng_pos + env.U2F_KEY_HANDLE_KEY_SIZE
      up_tests := w.up_tests + 1
      ecc_key := EccKey.attestation
      signed := w.signed ++ [(EccKey.attestation, hash)] }
    (by show r.length + 2 ≤ r.data_size; omega)
  refine ⟨r2, ?_, ?_⟩
  · unfold u2f_request
    rw [rcode_switch env req resp w hu2f hext hcla]
    unfold u2f_request_switch
    simp only [hins, hlen, if_true, ne_eq, not_true_eq_false, if_false]
    rw [h1, Option.some_bind]
    exact h2
  · rw [b2]
    show r.bytes ++ [0x90, 0x00] = _
    rw [b1, bytes_of_length_zero resp hempty, List.nil_append]
    rfl

/-- A slice of `a + b` bytes is the slice of the first `a` bytes followed by the
slice of the next `b`. -/
theorem slice_add (p : Nat → Nat) (off a b : Nat) :
    slice p off (a + b) = slice p off a ++ slice p (off + a) b := by
  unfold slice
  rw [List.range_add, List.map_append, List.map_map]
  congr 1
  apply List.map_congr_left
  intro i _
  simp [Nat.add_assoc]

theorem drop_take_mid (a b c : List Nat) (n m : Nat) (ha : a.length = n)
    (hb : b.length = m) : ((a ++ b ++ c).drop n).take m = b := by
  rw [List.append_assoc, List.drop_left' ha, List.take_left' hb]

/-- Where the public key and the handle sit in a register response. -/
theorem register_layout (pub handle cert der : List Nat) (b n : Nat)
    (hpub : pub.length = 64) (hh : handle.length = n) :
    (([0x05, 0x04] ++ pub ++ [b] ++ handle ++ cert ++ der
        ++ [0x90, 0x00]).drop 2).take 64 = pub
      ∧ (([0x05, 0x04] ++ pub ++ [b] ++ handle ++ cert ++ der
        ++ [0x90, 0x00]).drop 67).take n = handle := by
  constructor
  · have e : [0x05, 0x04] ++ pub ++ [b] ++ handle ++ cert ++ der ++ [0x90, 0x00]
        = [0x05, 0x04] ++ pub ++ ([b] ++ handle ++ cert ++ der ++ [0x90, 0x00]) := by
      simp only [List.append_assoc]
    rw [e]
    exact drop_take_mid [0x05, 0x04] _ _ 2 64 rfl hpub
  · have e : [0x05, 0x04] ++ pub ++ [b] ++ handle ++ cert ++ der ++ [0x90, 0x00]
        = ([0x05, 0x04] ++ pub ++ [b]) ++ handle ++ (cert ++ der ++ [0x90, 0x00]) := by
      simp only [List.append_assoc]
    rw [e]
    exact drop_take_mid _ _ _ 67 n (by simp [hpub]) hh

/-- On a handle read from the payload, `u2f_appid_eq` returns 0 exactly when the
tag bytes of the payload are the truncated HMAC of the key bytes and the
application identifier. -/
theorem appid_eq_payload (env : Env) (payload : Nat → Nat) :
    u2f_appid_eq env (as_authenticate_request env payload).kh
        (as_authenticate_request env payload).app = 0
      ↔ slice payload (65 + env.U2F_KEY_HANDLE_KEY_SIZE) env.U2F_KEY_HANDLE_TAG_SIZE
        = (env.crypto_sha256_hmac env.CRYPTO_MASTER_KEY
            (slice payload 65 env.U2F_KEY_HANDLE_KEY_SIZE
              ++ slice payload 32 32)).val.take env.U2F_KEY_HANDLE_TAG_SIZE := by
  unfold u2f_appid_eq memcmp u2f_make_auth_tag as_authenticate_request
  simp only [CREDENTIAL_TAG_SIZE, U2F_APPLICATION_SIZE, take_slice, List.take_take,
    Nat.min_self]
  constructor
  · intro h
    by_contra hne
    simp [hne] at h
  · intro h
    simp [h]

/-- A check-only AUTHENTICATE request: the response is `69 85` or `6A 80`
according to `u2f_appid_eq`, and only the response buffer changes. -/
theorem request_check (env : Env) (req : u2f_request_apdu)
    (resp : CTAP_RESPONSE) (w : World) (hu2f : env.ENABLE_U2F = true)
    (hext : env.extend_u2f = none) (hcla : req.cla = 0)
    (hins : req.ins = U2F_AUTHENTICATE) (hp1 : req.p1 = U2F_AUTHENTICATE_CHECK)
    (hcap : 2 ≤ resp.data_size) :
    ∃ r, u2f_request env req resp w = some (w.withResp r)
      ∧ r.bytes = if u2f_appid_eq env (as_authenticate_request env req.payload).kh
          (as_authenticate_request env req.payload).app = 0
        then [0x69, 0x85] else [0x6a, 0x80] := by
  have hne : ¬ U2F_AUTHENTICATE = U2F_REGISTER := by decide
  have hsw : u2f_request_rcode env req resp w
      = some (if u2f_appid_eq env (as_authenticate_request env req.payload).kh
            (as_authenticate_request env req.payload).app = 0
          then U2F_SW_CONDITIONS_NOT_SATISFIED else U2F_SW_WRONG_DATA,
          w.withResp resp) := by
    rw [rcode_switch env req resp w hu2f hext hcla]
    unfold u2f_request_switch
    simp only [hins, hne, if_false, if_true, hp1, authenticate_check]
  unfold u2f_request
  rw [hsw, Option.some_bind]
  by_cases hv : u2f_appid_eq env (as_authenticate_request env req.payload).kh
      (as_authenticate_request env req.payload).app = 0
  · simp only [hv, if_true]
    obtain ⟨r, hr, hb⟩ := request_end_error U2F_SW_CONDITIONS_NOT_SATISFIED
      (w.withResp resp) (by decide) hcap
    exact ⟨r, hr, by rw [hb]; decide⟩
  · simp only [hv, if_false]
    obtain ⟨r, hr, hb⟩ := request_end_error U2F_SW_WRONG_DATA
      (w.withResp resp) (by decide) hcap
    exact ⟨r, hr, by rw [hb]; decide⟩

/-- An AUTHENTICATE request whose handle does not verify is answered `6A 80` in
every control mode, and only the response buffer changes. -/
theorem request_authenticate_invalid (env : Env) (req : u2f_request_apdu)
    (resp : CTAP_RESPONSE) (w : World) (hu2f : env.ENABLE_U2F = true)
    (hext : env.extend_u2f = none) (hcla : req.cla = 0)
    (hins : req.ins = U2F_AUTHENTICATE) (hcap : 2 ≤ resp.data_size)
    (hv : u2f_appid_eq env (as_authenticate_request env req.payload).kh
      (as_authenticate_request env req.payload).app ≠ 0) :
    ∃ r, u2f_request env req resp w = some (w.withResp r)
      ∧ r.bytes = [0x6a, 0x80] := by
  have hne : ¬ U2F_AUTHENTICATE = U2F_REGISTER := by decide
  have hsw : u2f_request_rcode env req resp w
      = some (0x6a80, w.withResp resp) := by
    rw [rcode_switch env req resp w hu2f hext hcla]
    unfold u2f_request_switch
    simp only [hins, hne, if_false, if_true]
    by_cases hc : req.p1 = U2F_AUTHENTICATE_CHECK
    · rw [hc, authenticate_check, if_neg hv]
      rfl
    · rw [authenticate_reject env _ _ _ hc (Or.inr (Or.inr hv))]
      rfl
  obtain ⟨r, hr, hb⟩ := request_end_error 0x6a80 (w.withResp resp) (by decide) hcap
  refine ⟨r, ?_, by rw [hb]; decide⟩
  unfold u2f_request
  rw [hsw, Option.some_bind]
  exact hr

/-- The 32 bytes a function on `Fin 32` lists. -/
theorem ofFn_bytes (d : Fin 32 → Fin 256) :
    (List.ofFn fun i => (d i).val).length = 32
      ∧ ∀ b ∈ List.ofFn fun i => (d i).val, b < 256 := by
  refine ⟨by simp, ?_⟩
  intro b hb
  rw [List.mem_ofFn] at hb
  obtain ⟨i, rfl⟩ := hb
  exact (d i).isLt

/-- A tag shorter than 32 bytes cannot separate all application identifiers:
whatever byte-valued HMAC the device uses and whatever the key of the handle,
two different 32-byte identifiers have the same tag, so that a handle minted
for the one verifies for the other. -/
theorem truncated_tag_collides (env : Env) (key : List Nat)
    (htag : env.U2F_KEY_HANDLE_TAG_SIZE < 32)
    (hbytes : ∀ m, ∀ b ∈ (env.crypto_sha256_hmac env.CRYPTO_MASTER_KEY m).val, b < 256) :
    ∃ app app' : List Nat, app.length = 32 ∧ app'.length = 32
      ∧ (∀ b ∈ app, b < 256) ∧ (∀ b ∈ app', b < 256) ∧ app ≠ app'
      ∧ u2f_appid_eq env
          { key := key, tag := u2f_make_auth_tag env { key := key, tag := [] } app }
          app' = 0 := by
  let T := env.U2F_KEY_HANDLE_TAG_SIZE
  let tagOf : List Nat → List Nat := fun app =>
    u2f_make_auth_tag env { key := key, tag := [] } app
  have hlen : ∀ app, (tagOf app).length = T := by
    intro app
    simp only [tagOf, u2f_make_auth_tag, CREDENTIAL_TAG_SIZE, List.length_take,
      (env.crypto_sha256_hmac _ _).property]
    omega
  have hlt : ∀ app, ∀ b ∈ tagOf app, b < 256 := by
    intro app b hb
    exact hbytes _ b (List.mem_of_mem_take hb)
  let f : (Fin 32 → Fin 256) → (Fin T → Fin 256) := fun d i =>
    ⟨(tagOf (List.ofFn fun j => (d j).val)).get ⟨i.val, by rw [hlen]; exact i.isLt⟩,
      hlt _ _ (List.get_mem _ _ _)⟩
  have hcard : Fintype.card (Fin T → Fin 256) < Fintype.card (Fin 32 → Fin 256) := by
    simp only [Fintype.card_fun, Fintype.card_fin]
    exact Nat.pow_lt_pow_right (by decide) htag
  obtain ⟨d, d', hne, hf⟩ := Fintype.exists_ne_map_eq_of_card_lt f hcard
  refine ⟨List.ofFn fun j => (d j).val, List.ofFn fun j => (d' j).val,
    (ofFn_bytes d).1, (ofFn_bytes d').1, (ofFn_bytes d).2, (ofFn_bytes d').2, ?_, ?_⟩
  · intro h
    apply hne
    funext j
    have := congrFun (List.ofFn_injective h) j
    exact Fin.ext this
  · have htags : tagOf (List.ofFn fun j => (d j).val)
        = tagOf (List.ofFn fun j => (d' j).val) := by
      apply List.ext_get
      · rw [hlen, hlen]
      · intro n h1 h2
        have hn : n < T := by rw [hlen] at h1; exact h1
        have := congrArg Fin.val (congrFun hf ⟨n, hn⟩)
        exact this
    have hAB : u2f_make_auth_tag env { key := key, tag := [] }
          (List.ofFn fun j => (d j).val)
        = u2f_make_auth_tag env
            { key := key
              tag := u2f_make_auth_tag env { key := key, tag := [] }
                (List.ofFn fun j => (d j).val) }
            (List.ofFn fun j => (d' j).val) := htags
    unfold u2f_appid_eq memcmp
    dsimp only
    rw [if_pos (congrArg (List.take env.U2F_KEY_HANDLE_TAG_SIZE) hAB)]
    rfl

/-- An AUTHENTICATE request outside check-only mode whose control byte is not
SIGN, or whose handle length is wrong, or whose handle does not verify, is
answered `6A 80`, and only the response buffer changes. -/
theorem request_reject (env : Env) (req : u2f_request_apdu)
    (resp : CTAP_RESPONSE) (w : World) (hu2f : env.ENABLE_U2F = true)
    (hext : env.extend_u2f = none) (hcla : req.cla = 0)
    (hins : req.ins = U2F_AUTHENTICATE) (hcap : 2 ≤ resp.data_size)
    (hc : req.p1 ≠ U2F_AUTHENTICATE_CHECK)
    (h : req.p1 ≠ U2F_AUTHENTICATE_SIGN
      ∨ (as_authenticate_request env req.payload).khl ≠ U2F_KEY_HANDLE_SIZE env
      ∨ u2f_appid_eq env (as_authenticate_request env req.payload).kh
          (as_authenticate_request env req.payload).app ≠ 0) :
    ∃ r, u2f_request env req resp w = some (w.withResp r)
      ∧ r.bytes = [0x6a, 0x80] := by
  have hne : ¬ U2F_AUTHENTICATE = U2F_REGISTER := by decide
  have hsw : u2f_request_rcode env req resp w
      = some (U2F_SW_WRONG_PAYLOAD, w.withResp resp) := by
    rw [rcode_switch env req resp w hu2f hext hcla]
    unfold u2f_request_switch
    simp only [hins, hne, if_false, if_true]
    exact authenticate_reject env _ _ _ hc h
  obtain ⟨r, hr, hb⟩ := request_end_error U2F_SW_WRONG_PAYLOAD (w.withResp resp)
    (by decide) hcap
  refine ⟨r, ?_, by rw [hb]; decide⟩
  unfold u2f_request
  rw [hsw, Option.some_bind]
  exact hr

/-- A REGISTER request of length 64 when the presence test fails: the answer is
`69 85` and, the response buffer apart, only the presence test was made. -/
theorem request_register_absent (env : Env) (req : u2f_request_apdu)
    (resp : CTAP_RESPONSE) (w : World) (hu2f : env.ENABLE_U2F = true)
    (hext : env.extend_u2f = none) (hcla : req.cla = 0)
    (hins : req.ins = U2F_REGISTER) (hlen : request_len req = 64)
    (hup : env.ctap_user_presence_test w.up_tests = 0)
    (hcap : 2 ≤ resp.data_size) :
    ∃ r, u2f_request env req resp w
        = some { w with _u2f_resp := r, up_tests := w.up_tests + 1 }
      ∧ r.bytes = [0x69, 0x85] := by
  have hsw : u2f_request_rcode env req resp w
      = some (U2F_SW_CONDITIONS_NOT_SATISFIED,
          { w.withResp resp with up_tests := w.up_tests + 1 }) := by
    rw [rcode_switch env req resp w hu2f hext hcla]
    unfold u2f_request_switch
    simp only [hins, hlen, if_true, ne_eq, not_true_eq_false, if_false]
    exact register_absent env _ (w.withResp resp) hup
  obtain ⟨r, hr, hb⟩ := request_end_error U2F_SW_CONDITIONS_NOT_SATISFIED
    { w.withResp resp with up_tests := w.up_tests + 1 } (by decide) hcap
  refine ⟨r, ?_, by rw [hb]; decide⟩
  unfold u2f_request
  rw [hsw, Option.some_bind]
  exact hr

/-- An AUTHENTICATE request in SIGN mode with a verifying handle when the
presence test fails: the answer is `69 85`; the handle was loaded and the
presence test made, nothing else changed. -/
theorem request_sign_absent (env : Env) (req : u2f_request_apdu)
    (resp : CTAP_RESPONSE) (w : World) (hu2f : env.ENABLE_U2F = true)
    (hext : env.extend_u2f = none) (hcla : req.cla = 0)
    (hins : req.ins = U2F_AUTHENTICATE) (hp1 : req.p1 = U2F_AUTHENTICATE_SIGN)
    (hkhl : (as_authenticate_request env req.payload).khl = U2F_KEY_HANDLE_SIZE env)
    (hver : u2f_appid_eq env (as_authenticate_request env req.payload).kh
      (as_authenticate_request env req.payload).app = 0)
    (hup : env.ctap_user_presence_test w.up_tests = 0)
    (hcap : 2 ≤ resp.data_size) :
    ∃ r, u2f_request env req resp w
        = some { w with
                 _u2f_resp := r
                 ecc_key := EccKey.handle
                   ((as_authenticate_request env req.payload).kh.raw.take
                     (U2F_KEY_HANDLE_SIZE env))
                 up_tests := w.up_tests + 1 }
      ∧ r.bytes = [0x69, 0x85] := by
  have hne : ¬ U2F_AUTHENTICATE = U2F_REGISTER := by decide
  have hsw : u2f_request_rcode env req resp w
      = some (U2F_SW_CONDITIONS_NOT_SATISFIED,
          { w.withResp resp with
            ecc_key := EccKey.handle
              ((as_authenticate_request env req.payload).kh.raw.take
                (U2F_KEY_HANDLE_SIZE env))
            up_tests := w.up_tests + 1 }) := by
    rw [rcode_switch env req resp w hu2f hext hcla]
    unfold u2f_request_switch
    simp only [hins, hne, if_false, if_true, hp1]
    exact authenticate_absent env _ (w.withResp resp) hkhl hver hup
  obtain ⟨r, hr, hb⟩ := request_end_error U2F_SW_CONDITIONS_NOT_SATISFIED
    { w.withResp resp with
      ecc_key := EccKey.handle
        ((as_authenticate_request env req.payload).kh.raw.take
          (U2F_KEY_HANDLE_SIZE env))
      up_tests := w.up_tests + 1 } (by decide) hcap
  refine ⟨r, ?_, by rw [hb]; decide⟩
  unfold u2f_request
  rw [hsw, Option.some_bind]
  exact hr

/-- The handle bytes the engine receives are the `U2F_KEY_HANDLE_SIZE` bytes of
the payload from offset 65. -/
theorem raw_of_payload (env : Env) (payload : Nat → Nat) :
    (as_authenticate_request env payload).kh.raw.take (U2F_KEY_HANDLE_SIZE env)
      = slice payload 65 (U2F_KEY_HANDLE_SIZE env) := by
  have e : (as_authenticate_request env payload).kh.raw
      = slice payload 65 (U2F_KEY_HANDLE_SIZE env) := by
    rw [U2F_KEY_HANDLE_SIZE, slice_add]
    rfl
  rw [e, take_slice]

/-- The four counter bytes are the big-endian digits of a 32-bit counter. -/
theorem count_bytes_eq (c : Nat) :
    count_bytes c
      = [c / 2 ^ 24 % 256, c / 2 ^ 16 % 256, c / 2 ^ 8 % 256, c % 256] := by
  have e : ∀ x : Nat, x &&& 0xff = x % 256 := fun x =>
    Nat.and_pow_two_sub_one_eq_mod x 8
  unfold count_bytes
  simp only [e, Nat.shiftRight_eq_div_pow, Nat.pow_zero, Nat.div_one]

/-- An AUTHENTICATE request in SIGN mode with a verifying handle and a passing
presence test, on an empty buffer with room: the final state and response. -/
theorem request_sign (env : Env) (req : u2f_request_apdu)
    (resp : CTAP_RESPONSE) (w : World) (hu2f : env.ENABLE_U2F = true)
    (hext : env.extend_u2f = none) (hcla : req.cla = 0)
    (hins : req.ins = U2F_AUTHENTICATE) (hp1 : req.p1 = U2F_AUTHENTICATE_SIGN)
    (hkhl : (as_authenticate_request env req.payload).khl = U2F_KEY_HANDLE_SIZE env)
    (hver : u2f_appid_eq env (as_authenticate_request env req.payload).kh
      (as_authenticate_request env req.payload).app = 0)
    (hup : env.ctap_user_presence_test w.up_tests ≠ 0)
    (hempty : resp.length = 0)
    (hcap : 1 + 4 + 72 + 2 ≤ resp.data_size) :
    let count := (w.counter + 1) % 2 ^ 32
    let key := EccKey.handle (slice req.payload 65 (U2F_KEY_HANDLE_SIZE env))
    let hash := (env.crypto_sha256 (slice req.payload 32 32 ++ [0x01]
      ++ count_bytes count ++ slice req.payload 0 32)).val
    let sig := (env.crypto_ecc256_sign w.signed.length key hash).val
    ∃ r, u2f_request env req resp w
        = some { _u2f_resp := r
                 counter := count
                 rng_pos := w.rng_pos
                 up_tests := w.up_tests + 1
                 ecc_key := key
                 signed := w.signed ++ [(key, hash)] }
      ∧ r.bytes = [0x01] ++ count_bytes count
          ++ (env.ctap_encode_der_sig sig).val ++ [0x90, 0x00] := by
  intro count key hash sig
  have hne : ¬ U2F_AUTHENTICATE = U2F_REGISTER := by decide
  obtain ⟨r, h1, b1, c1, l1⟩ := authenticate_sign env
    (as_authenticate_request env req.payload) (w.withResp resp) hkhl hver hup
    (by simp only [withResp_resp]; omega)
  simp only [withResp_resp] at b1 c1 l1
  rw [raw_of_payload] at h1 b1
  obtain ⟨r2, h2, b2⟩ := request_end_ok
    { _u2f_resp := r
      counter := count
      rng_pos := w.rng_pos
      up_tests := w.up_tests + 1
      ecc_key := key
      signed := w.signed ++ [(key, hash)] }
    (by show r.length + 2 ≤ r.data_size; omega)
  refine ⟨r2, ?_, ?_⟩
  · unfold u2f_request
    rw [rcode_switch env req resp w hu2f hext hcla]
    unfold u2f_request_switch
    simp only [hins, hne, if_false, if_true, hp1]
    rw [h1, Option.some_bind]
    exact h2
  · rw [b2]
    show r.bytes ++ [0x90, 0x00] = _
    rw [b1, bytes_of_length_zero resp hempty, List.nil_append]
    rfl

/-- A request of class 0 whose instruction is none of the five `case` labels is
answered `6D 00`, and only the response buffer changes. -/
theorem request_ins_not_supported (env : Env) (req : u2f_request_apdu)
    (resp : CTAP_RESPONSE) (w : World) (hu2f : env.ENABLE_U2F = true)
    (hext : env.extend_u2f = none) (hcla : req.cla = 0)
    (hcap : 2 ≤ resp.data_size)
    (h1 : req.ins ≠ U2F_REGISTER) (h2 : req.ins ≠ U2F_AUTHENTICATE)
    (h3 : req.ins ≠ U2F_VERSION) (h4 : req.ins ≠ U2F_VENDOR_FIRST)
    (h5 : req.ins ≠ U2F_VENDOR_LAST) :
    ∃ r, u2f_request env req resp w = some (w.withResp r)
      ∧ r.bytes = [0x6d, 0x00] := by
  have hsw : u2f_request_rcode env req resp w
      = some (U2F_SW_INS_NOT_SUPPORTED, w.withResp resp) := by
    rw [rcode_switch env req resp w hu2f hext hcla]
    unfold u2f_request_switch
    simp only [h1, h2, h3, h4, h5, if_false, or_self]
  obtain ⟨r, hr, hb⟩ := request_end_error U2F_SW_INS_NOT_SUPPORTED (w.withResp resp)
    (by decide) hcap
  refine ⟨r, ?_, by rw [hb]; decide⟩
  unfold u2f_request
  rw [hsw, Option.some_bind]
  exact hr

/-- For an AUTHENTICATE request of class 0 without extension hook, the status
is the one `u2f_authenticate` computes from the payload and `p1`. -/
theorem rcode_authenticate (env : Env) (req : u2f_request_apdu)
    (resp : CTAP_RESPONSE) (w : World) (hext : env.extend_u2f = none)
    (hcla : req.cla = 0) (hins : req.ins = U2F_AUTHENTICATE) :
    u2f_request_rcode env req resp w
      = if env.ENABLE_U2F = true then
          u2f_authenticate env (as_authenticate_request env req.payload) req.p1
            (u2f_set_writeback_buffer w resp)
        else some (0, u2f_set_writeback_buffer w resp) := by
  have hne : ¬ U2F_AUTHENTICATE = U2F_REGISTER := by decide
  unfold u2f_request_rcode u2f_request_switch
  simp [hcla, hext, hins, hne, U2F_SW_NO_ERROR]

/-- Whatever the state and the capacity, a `u2f_authenticate` that returns
returns `CONDITIONS_NOT_SATISFIED`, `WRONG_DATA` (the value of `WRONG_PAYLOAD`)
or `NO_ERROR`. -/
theorem authenticate_status (env : Env) (req : u2f_authenticate_request)
    (control : Nat) (w w1 : World) (rc : Nat)
    (h : u2f_authenticate env req control w = some (rc, w1)) :
    rc = U2F_SW_CONDITIONS_NOT_SATISFIED ∨ rc = U2F_SW_WRONG_DATA
      ∨ rc = U2F_SW_NO_ERROR := by
  by_cases hc : control = U2F_AUTHENTICATE_CHECK
  · rw [hc, authenticate_check] at h
    have := (congrArg Prod.fst (Option.some.inj h)).symm
    by_cases hv : u2f_appid_eq env req.kh req.app = 0
    · rw [if_pos hv] at this
      exact Or.inl this
    · rw [if_neg hv] at this
      exact Or.inr (Or.inl this)
  · by_cases hrej : control ≠ U2F_AUTHENTICATE_SIGN
        ∨ req.khl ≠ U2F_KEY_HANDLE_SIZE env
        ∨ u2f_appid_eq env req.kh req.app ≠ 0
    · rw [authenticate_reject env _ _ w hc hrej] at h
      exact Or.inr (Or.inl (congrArg Prod.fst (Option.some.inj h)).symm)
    · simp only [not_or, ne_eq, not_not] at hrej
      obtain ⟨hs, hk, hv⟩ := hrej
      rw [hs] at h
      by_cases hup : env.ctap_user_presence_test w.up_tests = 0
      · rw [authenticate_absent env _ w hk hv hup] at h
        exact Or.inl (congrArg Prod.fst (Option.some.inj h)).symm
      · right; right
        have hcs : ¬ U2F_AUTHENTICATE_SIGN = U2F_AUTHENTICATE_CHECK := by decide
        unfold u2f_authenticate at h
        simp only [hcs, if_false, ne_eq, not_true_eq_false, hk, hv, u2f_load_key,
          crypto_ecc256_load_key, ctap_user_presence_test, hup, ctap_atomic_count,
          crypto_ecc256_sign, dump_signature_der, Option.bind_eq_some] at h
        obtain ⟨_, _, _, _, _, _, h⟩ := h
        exact (congrArg Prod.fst (Option.some.inj h)).symm

/-- Without an extension hook and with room for the largest response and its
status word, `u2f_request` returns. -/
theorem request_returns (env : Env) (req : u2f_request_apdu)
    (resp : CTAP_RESPONSE) (w : World) (hext : env.extend_u2f = none)
    (hfit : resp.length + (2 + 64 + 1 + U2F_KEY_HANDLE_SIZE env
        + attestation_cert_der_size env % 2 ^ 16 + 72) + 2 ≤ resp.data_size) :
    ∃ w', u2f_request env req resp w = some w' := by
  obtain ⟨rcode, w1, h1, _, hc, hl⟩ := rcode_total env req resp w hext hfit
  unfold u2f_request
  rw [h1, Option.some_bind]
  by_cases hok : rcode = U2F_SW_NO_ERROR
  · obtain ⟨r, hr, -⟩ := request_end_ok w1 (hl hok)
    exact ⟨_, hok ▸ hr⟩
  · obtain ⟨r, hr, -⟩ := request_end_error rcode w1 hok (by omega)
    exact ⟨_, hr⟩

/-- The two definitions of the response writer agree on the state. -/
theorem writeback_ret_snd (w : World) (buf : List Nat) (len : Nat) :
    (u2f_response_writeback_ret w buf len).map Prod.snd
      = u2f_response_writeback w buf len := by
  unfold u2f_response_writeback_ret u2f_response_writeback
  by_cases h : w._u2f_resp.length + len > w._u2f_resp.data_size <;> simp [h]

/-- The bytes after a sequence of successful appends. -/
theorem writeback_seq_bytes (bufs : List (List Nat)) :
    ∀ w w' : World, writeback_seq w bufs = some w'
      → w'._u2f_resp.bytes = w._u2f_resp.bytes ++ bufs.flatten
        ∧ w'._u2f_resp.data_size = w._u2f_resp.data_size
        ∧ w' = w.withResp w'._u2f_resp := by
  induction bufs with
  | nil =>
    intro w w' h
    have : w = w' := Option.some.inj h
    subst this
    exact ⟨by simp, rfl, rfl⟩
  | cons buf rest ih =>
    intro w w' h
    unfold writeback_seq at h
    by_cases hfit : w._u2f_resp.length + buf.length ≤ w._u2f_resp.data_size
    · rw [writeback_bind _ _ _ _ hfit] at h
      obtain ⟨hb, hc, hw⟩ := ih _ _ h
      refine ⟨?_, ?_, ?_⟩
      · rw [hb, withResp_resp, written_bytes _ _ _ (Nat.le_refl _), List.take_length,
          List.flatten_cons, List.append_assoc]
      · rw [hc, withResp_resp, written_data_size]
      · rw [hw, withResp_withResp]
        rfl
    · rw [writeback_aborts w buf buf.length (by omega)] at h
      exact absurd h (by simp)

/-- A sequence of appends that fits as a whole succeeds. -/
theorem writeback_seq_fits (bufs : List (List Nat)) :
    ∀ w : World,
      w._u2f_resp.length + (bufs.map List.length).sum ≤ w._u2f_resp.data_size
      → ∃ w', writeback_seq w bufs = some w' := by
  induction bufs with
  | nil => exact fun w _ => ⟨w, rfl⟩
  | cons buf rest ih =>
    intro w h
    simp only [List.map_cons, List.sum_cons] at h
    unfold writeback_seq
    rw [writeback_bind _ _ _ _ (by omega)]
    exact ih _ (by simp only [withResp_resp, written_length, written_data_size]; omega)

theorem bytes_length (r : CTAP_RESPONSE) : r.bytes.length = r.length :=
  slice_length _ _ _

/-- What the `switch` does on every buffer with room: the status, the bytes it
appends and the state it leaves, the buffer apart, do not depend on the buffer;
the bytes held on entry stay in place.  The counter changes only in a
successful SIGN, whose data start with `01` and the new counter. -/
theorem switch_spec (env : Env) (req : u2f_request_apdu) (len : Nat) (w : World)
    (htag : env.U2F_KEY_HANDLE_TAG_SIZE ≤ 32) :
    ∃ (rcode : Nat) (data : List Nat) (w1 : World),
      rcode < 2 ^ 16
      ∧ ((w1.counter = w.counter
            ∧ ¬ (req.ins = U2F_AUTHENTICATE ∧ req.p1 = U2F_AUTHENTICATE_SIGN
                ∧ rcode = U2F_SW_NO_ERROR))
          ∨ (req.ins = U2F_AUTHENTICATE ∧ req.p1 = U2F_AUTHENTICATE_SIGN
              ∧ rcode = U2F_SW_NO_ERROR
              ∧ w1.counter = (w.counter + 1) % 2 ^ 32
              ∧ data.take 5 = 0x01 :: count_bytes ((w.counter + 1) % 2 ^ 32)))
      ∧ ∀ resp : CTAP_RESPONSE,
          resp.length + (2 + 64 + 1 + U2F_KEY_HANDLE_SIZE env
            + attestation_cert_der_size env % 2 ^ 16 + 72) + 2 ≤ resp.data_size →
          ∃ r, u2f_request_switch env req len (w.withResp resp)
              = some (rcode, w1.withResp r)
            ∧ r.bytes = resp.bytes ++ data
            ∧ r.data_size = resp.data_size
            ∧ r.length + 2 ≤ r.data_size := by
  have hra : ¬ U2F_REGISTER = U2F_AUTHENTICATE := by decide
  have hva : ¬ U2F_VERSION = U2F_AUTHENTICATE := by decide
  by_cases hreg : req.ins = U2F_REGISTER
  · by_cases hlen : len = 64
    · by_cases hup : env.ctap_user_presence_test w.up_tests = 0
      · refine ⟨U2F_SW_CONDITIONS_NOT_SATISFIED, [], { w with up_tests := w.up_tests + 1 },
          by decide, Or.inl ⟨rfl, fun h => absurd h.2.2 (by decide)⟩, fun resp hfit => ?_⟩
        refine ⟨resp, ?_, (List.append_nil _).symm, rfl, by omega⟩
        unfold u2f_request_switch
        simp only [hreg, hlen, if_true, ne_eq, not_true_eq_false, if_false]
        exact register_absent env _ (w.withResp resp) hup
      · let key := slice env.ctap_generate_rng w.rng_pos env.U2F_KEY_HANDLE_KEY_SIZE
        let tag := (env.crypto_sha256_hmac env.CRYPTO_MASTER_KEY
          (key ++ slice req.payload 32 32)).val.take env.U2F_KEY_HANDLE_TAG_SIZE
        let xy := env.crypto_ecc256_derive_public_key (key ++ tag)
        let hash := (env.crypto_sha256 ([0x00] ++ slice req.payload 32 32
          ++ slice req.payload 0 32 ++ (key ++ tag) ++ [0x04]
          ++ (xy.1.val ++ xy.2.val))).val
        let sig := (env.crypto_ecc256_sign w.signed.length EccKey.attestation hash).val
        refine ⟨U2F_SW_NO_ERROR,
          [0x05, 0x04] ++ (xy.1.val ++ xy.2.val)
            ++ [U2F_KEY_HANDLE_SIZE env % 256] ++ (key ++ tag)
            ++ env.attestation_cert_der.take (attestation_cert_der_size env % 2 ^ 16)
            ++ (env.ctap_encode_der_sig sig).val,
          { w with
            rng_pos := w.rng_pos + env.U2F_KEY_HANDLE_KEY_SIZE
            up_tests := w.up_tests + 1
            ecc_key := EccKey.attestation
            signed := w.signed ++ [(EccKey.attestation, hash)] },
          by decide, Or.inl ⟨rfl, fun h => hra (hreg.symm.trans h.1)⟩,
          fun resp hfit => ?_⟩
        obtain ⟨r, h1, b1, c1, l1⟩ := register_present env req.payload
          (w.withResp resp) htag hup (by simp only [withResp_resp]; omega)
        simp only [withResp_resp] at c1 l1
        refine ⟨r, ?_, b1, c1, by omega⟩
        unfold u2f_request_switch
        simp only [hreg, hlen, if_true, ne_eq, not_true_eq_false, if_false]
        exact h1
    · refine ⟨U2F_SW_WRONG_LENGTH, [], w, by decide,
        Or.inl ⟨rfl, fun h => absurd h.2.2 (by decide)⟩, fun resp hfit => ?_⟩
      refine ⟨resp, ?_, (List.append_nil _).symm, rfl, by omega⟩
      unfold u2f_request_switch
      simp only [hreg, hlen, if_true, ne_eq, not_false_eq_true]
  · by_cases hauth : req.ins = U2F_AUTHENTICATE
    · by_cases hc : req.p1 = U2F_AUTHENTICATE_CHECK
      · refine ⟨if u2f_appid_eq env (as_authenticate_request env req.payload).kh
            (as_authenticate_request env req.payload).app = 0
          then U2F_SW_CONDITIONS_NOT_SATISFIED else U2F_SW_WRONG_DATA, [], w, ?_,
          Or.inl ⟨rfl, fun h => ?_⟩, fun resp hfit => ?_⟩
        · split <;> decide
        · rw [hc] at h
          exact absurd h.2.1 (by decide)
        · refine ⟨resp, ?_, (List.append_nil _).symm, rfl, by omega⟩
          unfold u2f_request_switch
          simp only [hreg, hauth, if_true, if_false, hc, authenticate_check]
          all_goals rfl
      · by_cases hrej : req.p1 ≠ U2F_AUTHENTICATE_SIGN
          ∨ (as_authenticate_request env req.payload).khl ≠ U2F_KEY_HANDLE_SIZE env
          ∨ u2f_appid_eq env (as_authenticate_request env req.payload).kh
              (as_authenticate_request env req.payload).app ≠ 0
        · refine ⟨U2F_SW_WRONG_PAYLOAD, [], w, by decide,
            Or.inl ⟨rfl, fun h => absurd h.2.2 (by decide)⟩, fun resp hfit => ?_⟩
          refine ⟨resp, ?_, (List.append_nil _).symm, rfl, by omega⟩
          unfold u2f_request_switch
          simp only [hreg, hauth, if_true, if_false]
          exact authenticate_reject env _ _ (w.withResp resp) hc hrej
        · simp only [not_or, ne_eq, not_not] at hrej
          obtain ⟨hs, hk, hv⟩ := hrej
          by_cases hup : env.ctap_user_presence_test w.up_tests = 0
          · refine ⟨U2F_SW_CONDITIONS_NOT_SATISFIED, [],
              { w with
                ecc_key := EccKey.handle
                  ((as_authenticate_request env req.payload).kh.raw.take
                    (U2F_KEY_HANDLE_SIZE env))
                up_tests := w.up_tests + 1 },
              by decide, Or.inl ⟨rfl, fun h => absurd h.2.2 (by decide)⟩,
              fun resp hfit => ?_⟩
            refine ⟨resp, ?_, (List.append_nil _).symm, rfl, by omega⟩
            unfold u2f_request_switch
            simp only [hreg, hauth, if_true, if_false, hs]
            exact authenticate_absent env _ (w.withResp resp) hk hv hup
          · let count := (w.counter + 1) % 2 ^ 32
            let key := EccKey.handle
              ((as_authenticate_request env req.payload).kh.raw.take
                (U2F_KEY_HANDLE_SIZE env))
            let hash := (env.crypto_sha256
              ((as_authenticate_request env req.payload).app ++ [0x01]
                ++ count_bytes count
                ++ (as_authenticate_request env req.payload).chal)).val
            let sig := (env.crypto_ecc256_sign w.signed.length key hash).val
            refine ⟨U2F_SW_NO_ERROR,
              [0x01] ++ count_bytes count ++ (env.ctap_encode_der_sig sig).val,
              { w with
                counter := count
                up_tests := w.up_tests + 1
                ecc_key := key
                signed := w.signed ++ [(key, hash)] },
              by decide,
              Or.inr ⟨hauth, hs, rfl, rfl,
                List.take_left' (show ([0x01] ++ count_bytes count).length = 5 from rfl)⟩,
              fun resp hfit => ?_⟩
            obtain ⟨r, h1, b1, c1, l1⟩ := authenticate_sign env
              (as_authenticate_request env req.payload) (w.withResp resp) hk hv hup
              (by simp only [withResp_resp]; omega)
            simp only [withResp_resp] at c1 l1
            refine ⟨r, ?_, b1, c1, by omega⟩
            unfold u2f_request_switch
            simp only [hreg, hauth, if_true, if_false, hs]
            exact h1
    · by_cases hver : req.ins = U2F_VERSION
      · by_cases hlen : len = 0
        · refine ⟨U2F_SW_NO_ERROR, [0x55, 0x32, 0x46, 0x5f, 0x56, 0x32], w, by decide,
            Or.inl ⟨rfl, fun h => hauth h.1⟩, fun resp hfit => ?_⟩
          obtain ⟨r, h1, b1, c1, l1⟩ := version_fits (w.withResp resp)
            (by simp only [withResp_resp]; omega)
          simp only [withResp_resp, withResp_withResp] at h1 b1 c1 l1
          refine ⟨r, ?_, b1, c1, by omega⟩
          unfold u2f_request_switch
          simp only [hreg, hauth, hver, hlen, if_true, if_false, ne_eq,
            not_true_eq_false]
          exact h1
        · refine ⟨U2F_SW_WRONG_LENGTH, [], w, by decide,
            Or.inl ⟨rfl, fun h => absurd h.2.2 (by decide)⟩, fun resp hfit => ?_⟩
          refine ⟨resp, ?_, (List.append_nil _).symm, rfl, by omega⟩
          unfold u2f_request_switch
          simp only [hreg, hauth, hver, hlen, if_true, if_false, ne_eq,
            not_false_eq_true]
          all_goals rfl
      · by_cases hven : req.ins = U2F_VENDOR_FIRST ∨ req.ins = U2F_VENDOR_LAST
        · refine ⟨U2F_SW_NO_ERROR, [], w, by decide,
            Or.inl ⟨rfl, fun h => hauth h.1⟩, fun resp hfit => ?_⟩
          refine ⟨resp, ?_, (List.append_nil _).symm, rfl, by omega⟩
          unfold u2f_request_switch
          simp only [hreg, hauth, hver, hven, if_true, if_false]
        · refine ⟨U2F_SW_INS_NOT_SUPPORTED, [], w, by decide,
            Or.inl ⟨rfl, fun h => absurd h.2.2 (by decide)⟩, fun resp hfit => ?_⟩
          refine ⟨resp, ?_, (List.append_nil _).symm, rfl, by omega⟩
          unfold u2f_request_switch
          simp only [hreg, hauth, hver, hven, if_false]

/-- What `u2f_request` does on every buffer with room, without extension hook:
the status, the data and the state left, the buffer apart, do not depend on the
buffer; after `NO_ERROR` the buffer holds the bytes it held on entry, the data
and `90 00`, after an error the two status bytes.  The counter changes only in
a successful SIGN, whose data start with `01` and the new counter. -/
theorem request_spec (env : Env) (req : u2f_request_apdu) (w : World)
    (hext : env.extend_u2f = none) (htag : env.U2F_KEY_HANDLE_TAG_SIZE ≤ 32) :
    ∃ (rcode : Nat) (data : List Nat) (w1 : World),
      rcode < 2 ^ 16
      ∧ ((w1.counter = w.counter
            ∧ ¬ (req.ins = U2F_AUTHENTICATE ∧ req.p1 = U2F_AUTHENTICATE_SIGN
                ∧ rcode = U2F_SW_NO_ERROR))
          ∨ (req.cla = 0 ∧ req.ins = U2F_AUTHENTICATE
              ∧ req.p1 = U2F_AUTHENTICATE_SIGN
              ∧ rcode = U2F_SW_NO_ERROR
              ∧ w1.counter = (w.counter + 1) % 2 ^ 32
              ∧ data.take 5 = 0x01 :: count_bytes ((w.counter + 1) % 2 ^ 32)))
      ∧ ∀ resp : CTAP_RESPONSE,
          resp.length + (2 + 64 + 1 + U2F_KEY_HANDLE_SIZE env
            + attestation_cert_der_size env % 2 ^ 16 + 72) + 2 ≤ resp.data_size →
          ∃ r, u2f_request env req resp w = some (w1.withResp r)
            ∧ r.bytes = (if rcode = U2F_SW_NO_ERROR then resp.bytes ++ data else [])
                ++ [rcode / 256, rcode % 256] := by
  have plain : ∀ rc : Nat, rc < 2 ^ 16 → rc ≠ U2F_SW_NO_ERROR →
      (∀ resp : CTAP_RESPONSE,
        u2f_request_rcode env req resp w = some (rc, w.withResp resp)) →
      ∃ (rcode : Nat) (data : List Nat) (w1 : World),
        rcode < 2 ^ 16
        ∧ ((w1.counter = w.counter
              ∧ ¬ (req.ins = U2F_AUTHENTICATE ∧ req.p1 = U2F_AUTHENTICATE_SIGN
                  ∧ rcode = U2F_SW_NO_ERROR))
            ∨ (req.cla = 0 ∧ req.ins = U2F_AUTHENTICATE
              ∧ req.p1 = U2F_AUTHENTICATE_SIGN
                ∧ rcode = U2F_SW_NO_ERROR
                ∧ w1.counter = (w.counter + 1) % 2 ^ 32
                ∧ data.take 5 = 0x01 :: count_bytes ((w.counter + 1) % 2 ^ 32)))
        ∧ ∀ resp : CTAP_RESPONSE,
            resp.length + (2 + 64 + 1 + U2F_KEY_HANDLE_SIZE env
            + attestation_cert_der_size env % 2 ^ 16 + 72) + 2 ≤ resp.data_size →
            ∃ r, u2f_request env req resp w = some (w1.withResp r)
              ∧ r.bytes
                = (if rcode = U2F_SW_NO_ERROR then resp.bytes ++ data else [])
                  ++ [rcode / 256, rcode % 256] := by
    intro rc hlt hne hrc
    refine ⟨rc, [], w, hlt, Or.inl ⟨rfl, fun h => hne h.2.2⟩, fun resp hfit => ?_⟩
    obtain ⟨r, hr, hb⟩ := request_end_error rc (w.withResp resp) hne
      (by simp only [withResp_resp]; omega)
    obtain ⟨e1, e2⟩ := status_bytes rc hlt
    refine ⟨r, ?_, ?_⟩
    · unfold u2f_request
      rw [hrc resp, Option.some_bind]
      exact hr
    · rw [hb, if_neg hne, e1, e2, List.nil_append]
  by_cases hcla : req.cla = 0
  · by_cases hu2f : env.ENABLE_U2F = true
    · obtain ⟨rcode, data, w1, hlt, hdisj, hsw⟩ := switch_spec env req
        (request_len req) w htag
      refine ⟨rcode, data, w1, hlt, hdisj.imp id (fun h => ⟨hcla, h⟩),
        fun resp hfit => ?_⟩
      obtain ⟨r1, h1, b1, c1, l1⟩ := hsw resp hfit
      obtain ⟨e1, e2⟩ := status_bytes rcode hlt
      by_cases hok : rcode = U2F_SW_NO_ERROR
      · obtain ⟨r, hr, hb⟩ := request_end_ok (w1.withResp r1)
          (by simp only [withResp_resp]; exact l1)
        refine ⟨r, ?_, ?_⟩
        · unfold u2f_request
          rw [rcode_switch env req resp w hu2f hext hcla, h1, Option.some_bind, hok]
          exact hr
        · rw [hb, withResp_resp, b1, if_pos hok, hok]
          rfl
      · obtain ⟨r, hr, hb⟩ := request_end_error rcode (w1.withResp r1) hok
          (by simp only [withResp_resp]; omega)
        refine ⟨r, ?_, ?_⟩
        · unfold u2f_request
          rw [rcode_switch env req resp w hu2f hext hcla, h1, Option.some_bind]
          exact hr
        · rw [hb, if_neg hok, e1, e2, List.nil_append]
    · refine plain 0 (by decide) (by decide) fun resp => ?_
      unfold u2f_request_rcode
      simp [hcla, hext, hu2f, U2F_SW_NO_ERROR]
      rfl
  · refine plain U2F_SW_CLASS_NOT_SUPPORTED (by decide) (by decide) fun resp => ?_
    unfold u2f_request_rcode
    simp [hcla]
    rfl

/-- A VERSION request of length 0 on any buffer with eight free bytes: the
bytes held on entry stay and `U2F_V2 ‖ 90 00` follows them. -/
theorem request_version (env : Env) (req : u2f_request_apdu)
    (resp : CTAP_RESPONSE) (w : World) (hu2f : env.ENABLE_U2F = true)
    (hext : env.extend_u2f = none) (hcla : req.cla = 0)
    (hins : req.ins = U2F_VERSION) (hlen : request_len req = 0)
    (hcap : resp.length + 8 ≤ resp.data_size) :
    ∃ r, u2f_request env req resp w = some (w.withResp r)
      ∧ r.bytes = resp.bytes ++ [0x55, 0x32, 0x46, 0x5f, 0x56, 0x32, 0x90, 0x00] := by
  obtain ⟨r, hr, hb, hc, hl⟩ := version_fits (w.withResp resp)
    (by simp only [withResp_resp]; omega)
  obtain ⟨r2, hr2, hb2⟩ := request_end_ok ((w.withResp resp).withResp r)
    (by simp only [withResp_resp] at hl hc ⊢; omega)
  refine ⟨r2, ?_, ?_⟩
  · unfold u2f_request
    rw [rcode_switch env req resp w hu2f hext hcla]
    unfold u2f_request_switch
    simp only [hins, hlen, U2F_REGISTER, U2F_AUTHENTICATE, U2F_VERSION, hr,
      Option.some_bind, Nat.reduceEqDiff, if_false, if_true, ne_eq, not_true_eq_false]
    exact hr2
  · rw [hb2, withResp_resp, hb, withResp_resp, List.append_assoc]
    rfl

/-- C1: every request with a class byte other than 0 is answered with exactly
the two bytes `6E 00`, and nothing but the response buffer changes: no presence
test, no random bytes, no counter increment, no key load, no signature. -/
theorem C1_class_not_supported (env : Env) (req : u2f_request_apdu)
    (resp : CTAP_RESPONSE) (w : World) (hcla : req.cla ≠ 0)
    (hcap : 2 ≤ resp.data_size) :
    ∃ w', u2f_request env req resp w = some w'
      ∧ w'._u2f_resp.bytes = [0x6e, 0x00]
      ∧ w'.up_tests = w.up_tests ∧ w'.rng_pos = w.rng_pos
      ∧ w'.counter = w.counter ∧ w'.ecc_key = w.ecc_key
      ∧ w'.signed = w.signed := by
  obtain ⟨r, hr, hb⟩ := request_end_error U2F_SW_CLASS_NOT_SUPPORTED
    (w.withResp resp) (by decide) hcap
  refine ⟨w.withResp r, ?_, ?_, rfl, rfl, rfl, rfl, rfl⟩
  · unfold u2f_request u2f_request_rcode
    simp only [hcla, ne_eq, not_false_eq_true, if_true, Option.some_bind]
    exact hr
  · rw [withResp_resp, hb]
    decide

/-- Witness of C1: the APDU `01 03 00 00 00 00 00` of scenario S2, on a buffer
that still holds bytes. -/
theorem C1_class_not_supported_witness :
    badClassReq.cla ≠ 0 ∧ 2 ≤ usedResp.data_size ∧
    ∃ w', u2f_request demoEnv badClassReq usedResp demoWorld = some w'
      ∧ w'._u2f_resp.bytes = [0x6e, 0x00]
      ∧ w'.up_tests = demoWorld.up_tests ∧ w'.rng_pos = demoWorld.rng_pos
      ∧ w'.counter = demoWorld.counter ∧ w'.ecc_key = demoWorld.ecc_key
      ∧ w'.signed = demoWorld.signed :=
  ⟨by decide, by decide,
    C1_class_not_supported demoEnv badClassReq usedResp demoWorld (by decide)
      (by decide)⟩

/-- C3: a VERSION request of class 0 with all three length bytes zero, whatever
`p1` and `p2`, started on an empty response buffer, produces exactly the eight
bytes `55 32 46 5F 56 32 90 00`: `U2F_V2` without terminator, then `NO_ERROR`. -/
theorem C3_version (env : Env) (req : u2f_request_apdu) (resp : CTAP_RESPONSE)
    (w : World) (hu2f : env.ENABLE_U2F = true) (hext : env.extend_u2f = none)
    (hcla : req.cla = 0) (hins : req.ins = 0x03)
    (h1 : req.LC1 = 0) (h2 : req.LC2 = 0) (h3 : req.LC3 = 0)
    (hempty : resp.length = 0) (hcap : 8 ≤ resp.data_size) :
    ∃ w', u2f_request env req resp w = some w'
      ∧ w'._u2f_resp.bytes = [0x55, 0x32, 0x46, 0x5f, 0x56, 0x32, 0x90, 0x00] := by
  obtain ⟨r, hr, hb, hc, hl⟩ := version_fits (w.withResp resp)
    (by simp only [withResp_resp]; omega)
  obtain ⟨r2, hr2, hb2⟩ := request_end_ok ((w.withResp resp).withResp r)
    (by simp only [withResp_resp, hl, hc]; omega)
  have hlen : request_len req = 0 := by simp [request_len, h1, h2, h3]
  refine ⟨w.withResp r2, ?_, ?_⟩
  · unfold u2f_request
    rw [rcode_switch env req resp w hu2f hext hcla]
    unfold u2f_request_switch
    simp only [hins, hlen, U2F_REGISTER, U2F_AUTHENTICATE, U2F_VERSION, hr,
      Option.some_bind, Nat.reduceEqDiff, if_false, if_true, ne_eq, not_true_eq_false]
    exact hr2
  · rw [withResp_resp, hb2, withResp_resp, hb, withResp_resp,
      bytes_of_length_zero resp hempty]
    rfl

/-- Witness of C3: the APDU `00 03 00 00 00 00 00` of scenario S1. -/
theorem C3_version_witness :
    demoEnv.ENABLE_U2F = true ∧ demoEnv.extend_u2f = none ∧ versionReq.cla = 0
      ∧ versionReq.ins = 0x03 ∧ versionReq.LC1 = 0 ∧ versionReq.LC2 = 0
      ∧ versionReq.LC3 = 0 ∧ demoResp.length = 0 ∧ 8 ≤ demoResp.data_size
      ∧ ∃ w', u2f_request demoEnv versionReq demoResp demoWorld = some w'
        ∧ w'._u2f_resp.bytes = [0x55, 0x32, 0x46, 0x5f, 0x56, 0x32, 0x90, 0x00] :=
  ⟨rfl, rfl, rfl, rfl, rfl, rfl, rfl, rfl, by decide,
    C3_version demoEnv versionReq demoResp demoWorld rfl rfl rfl rfl rfl rfl rfl
      rfl (by decide)⟩

/-- C4: with `lc = LC1 << 16 | LC2 << 8 | LC3`, a request of class 0 that is a
REGISTER with `lc ≠ 64` or a VERSION with `lc ≠ 0` is answered with exactly
`67 00`, and nothing but the response buffer changes (no presence test, no
random bytes, no key load, no signature); a REGISTER whose low length byte is
64 while `LC1` or `LC2` is not zero is among the rejected requests. -/
theorem C4_wrong_length (env : Env) (req : u2f_request_apdu)
    (resp : CTAP_RESPONSE) (w : World) (hu2f : env.ENABLE_U2F = true)
    (hext : env.extend_u2f = none) (hcla : req.cla = 0)
    (hcap : 2 ≤ resp.data_size)
    (hcase : (req.ins = 0x01
          ∧ (req.LC3 ||| (req.LC2 <<< 8) ||| (req.LC1 <<< 16)) ≠ 64)
      ∨ (req.ins = 0x03
          ∧ (req.LC3 ||| (req.LC2 <<< 8) ||| (req.LC1 <<< 16)) ≠ 0)
      ∨ (req.ins = 0x01 ∧ req.LC3 = 64 ∧ (req.LC1 ≠ 0 ∨ req.LC2 ≠ 0))) :
    ∃ w', u2f_request env req resp w = some w'
      ∧ w'._u2f_resp.bytes = [0x67, 0x00]
      ∧ w'.up_tests = w.up_tests ∧ w'.rng_pos = w.rng_pos
      ∧ w'.counter = w.counter ∧ w'.ecc_key = w.ecc_key
      ∧ w'.signed = w.signed := by
  obtain ⟨r, hr, hb⟩ := request_end_error U2F_SW_WRONG_LENGTH
    (w.withResp resp) (by decide) hcap
  have hsw : u2f_request_switch env req (request_len req) (w.withResp resp)
      = some (U2F_SW_WRONG_LENGTH, w.withResp resp) := by
    unfold u2f_request_switch
    rcases hcase with ⟨hins, hlen⟩ | ⟨hins, hlen⟩ | ⟨hins, -, hhigh⟩
    · have hlen' : request_len req ≠ 64 := hlen
      simp [hins, hlen', U2F_REGISTER]
    · have hlen' : request_len req ≠ 0 := hlen
      simp [hins, hlen', U2F_REGISTER, U2F_AUTHENTICATE, U2F_VERSION]
    · have hlen' : request_len req ≠ 64 := fun h => by
        have := request_len_eq_64 req h
        omega
      simp [hins, hlen', U2F_REGISTER]
  refine ⟨w.withResp r, ?_, ?_, rfl, rfl, rfl, rfl, rfl⟩
  · unfold u2f_request
    rw [rcode_switch env req resp w hu2f hext hcla, hsw]
    exact hr
  · rw [withResp_resp, hb]
    decide

/-- Witness of C4: a REGISTER header with length bytes `01 00 40`. -/
theorem C4_wrong_length_witness :
    demoEnv.ENABLE_U2F = true ∧ demoEnv.extend_u2f = none
      ∧ longRegisterReq.cla = 0 ∧ 2 ≤ demoResp.data_size
      ∧ (longRegisterReq.ins = 0x01 ∧ longRegisterReq.LC3 = 64
          ∧ (longRegisterReq.LC1 ≠ 0 ∨ longRegisterReq.LC2 ≠ 0))
      ∧ ∃ w', u2f_request demoEnv longRegisterReq demoResp demoWorld = some w'
        ∧ w'._u2f_resp.bytes = [0x67, 0x00]
        ∧ w'.up_tests = demoWorld.up_tests ∧ w'.rng_pos = demoWorld.rng_pos
        ∧ w'.counter = demoWorld.counter ∧ w'.ecc_key = demoWorld.ecc_key
        ∧ w'.signed = demoWorld.signed :=
  ⟨rfl, rfl, rfl, by decide, ⟨rfl, rfl, Or.inl (by decide)⟩,
    C4_wrong_length demoEnv longRegisterReq demoResp demoWorld rfl rfl rfl
      (by decide) (Or.inr (Or.inr ⟨rfl, rfl, Or.inl (by decide)⟩))⟩

/-- C2: started on an empty response buffer that has room for the largest
response, `u2f_request` always returns, and the final response is the data the
handler wrote followed by the status word as two bytes, high byte first; when
the status word is not `NO_ERROR` the data is empty and the response is the two
status bytes alone. -/
theorem C2_data_then_status (env : Env) (req : u2f_request_apdu)
    (resp : CTAP_RESPONSE) (w : World) (hext : env.extend_u2f = none)
    (hempty : resp.length = 0)
    (hcap : 2 + 64 + 1 + U2F_KEY_HANDLE_SIZE env
        + attestation_cert_der_size env % 2 ^ 16 + 72 + 2 ≤ resp.data_size) :
    ∃ rcode w1 w2, u2f_request_rcode env req resp w = some (rcode, w1)
      ∧ u2f_request env req resp w = some w2
      ∧ rcode < 2 ^ 16
      ∧ w2._u2f_resp.bytes
          = (if rcode = U2F_SW_NO_ERROR then w1._u2f_resp.bytes else [])
            ++ [rcode / 256, rcode % 256]
      ∧ (rcode ≠ U2F_SW_NO_ERROR
          → w2._u2f_resp.bytes = [rcode / 256, rcode % 256]) := by
  obtain ⟨rcode, w1, h1, hlt, hc, hl⟩ := rcode_total env req resp w hext
    (by omega)
  obtain ⟨e1, e2⟩ := status_bytes rcode hlt
  by_cases hok : rcode = U2F_SW_NO_ERROR
  · obtain ⟨r, hr, hb⟩ := request_end_ok w1 (hl hok)
    refine ⟨rcode, w1, w1.withResp r, h1, ?_, hlt, ?_, fun h => absurd hok h⟩
    · unfold u2f_request
      rw [h1, Option.some_bind, hok]
      exact hr
    · rw [withResp_resp, hb, if_pos hok, hok]
      rfl
  · obtain ⟨r, hr, hb⟩ := request_end_error rcode w1 hok (by omega)
    have hb' : (w1.withResp r)._u2f_resp.bytes = [rcode / 256, rcode % 256] := by
      rw [withResp_resp, hb, e1, e2]
    refine ⟨rcode, w1, w1.withResp r, h1, ?_, hlt, ?_, fun _ => hb'⟩
    · unfold u2f_request
      rw [h1, Option.some_bind]
      exact hr
    · rw [hb', if_neg hok, List.nil_append]

/-- Witness of C2: the VERSION request of scenario S1. -/
theorem C2_data_then_status_witness :
    demoEnv.extend_u2f = none ∧ demoResp.length = 0
      ∧ 2 + 64 + 1 + U2F_KEY_HANDLE_SIZE demoEnv
          + attestation_cert_der_size demoEnv % 2 ^ 16 + 72 + 2 ≤ demoResp.data_size
      ∧ ∃ rcode w1 w2,
        u2f_request_rcode demoEnv versionReq demoResp demoWorld = some (rcode, w1)
        ∧ u2f_request demoEnv versionReq demoResp demoWorld = some w2
        ∧ rcode < 2 ^ 16
        ∧ w2._u2f_resp.bytes
            = (if rcode = U2F_SW_NO_ERROR then w1._u2f_resp.bytes else [])
              ++ [rcode / 256, rcode % 256]
        ∧ (rcode ≠ U2F_SW_NO_ERROR
            → w2._u2f_resp.bytes = [rcode / 256, rcode % 256]) :=
  ⟨rfl, rfl, by decide,
    C2_data_then_status demoEnv versionReq demoResp demoWorld rfl rfl (by decide)⟩

/-- C5: a REGISTER request of class 0 and length 64 with a passing presence
test, on an empty buffer with room, is answered with exactly `05 04`, the public
key `X ‖ Y` derived from the minted handle, one byte equal to the handle size,
the handle `key ‖ tag`, the attestation certificate, the DER signature and
`90 00`; the key is the RNG output and the tag the truncated HMAC of
`key ‖ app_id` under the master key.  The status is `NO_ERROR`, and the
register handler, in whatever state it runs, never returns
`INSUFFICIENT_MEMORY`. -/
theorem C5_register_response (env : Env) (req : u2f_request_apdu)
    (resp : CTAP_RESPONSE) (w : World) (hu2f : env.ENABLE_U2F = true)
    (hext : env.extend_u2f = none) (hcla : req.cla = 0)
    (hins : req.ins = 0x01) (hlen : request_len req = 64)
    (htag : env.U2F_KEY_HANDLE_TAG_SIZE ≤ 32)
    (hkh : U2F_KEY_HANDLE_SIZE env < 256)
    (hcert : env.attestation_cert_der.length < 2 ^ 16)
    (hup : env.ctap_user_presence_test w.up_tests ≠ 0)
    (hempty : resp.length = 0)
    (hcap : 2 + 64 + 1 + U2F_KEY_HANDLE_SIZE env
        + env.attestation_cert_der.length + 72 + 2 ≤ resp.data_size) :
    let app_id := slice req.payload 32 32
    let challenge := slice req.payload 0 32
    let key := slice env.ctap_generate_rng w.rng_pos env.U2F_KEY_HANDLE_KEY_SIZE
    let tag := (env.crypto_sha256_hmac env.CRYPTO_MASTER_KEY
      (key ++ app_id)).val.take env.U2F_KEY_HANDLE_TAG_SIZE
    let xy := env.crypto_ecc256_derive_public_key (key ++ tag)
    let hash := (env.crypto_sha256 ([0x00] ++ app_id ++ challenge
      ++ (key ++ tag) ++ [0x04] ++ (xy.1.val ++ xy.2.val))).val
    let sig := (env.crypto_ecc256_sign w.signed.length EccKey.attestation hash).val
    ∃ w', u2f_request env req resp w = some w'
      ∧ w'._u2f_resp.bytes = [0x05, 0x04] ++ xy.1.val ++ xy.2.val
          ++ [U2F_KEY_HANDLE_SIZE env] ++ key ++ tag
          ++ env.attestation_cert_der
          ++ (env.ctap_encode_der_sig sig).val ++ [0x90, 0x00]
      ∧ key.length = env.U2F_KEY_HANDLE_KEY_SIZE
      ∧ tag.length = env.U2F_KEY_HANDLE_TAG_SIZE
      ∧ (∃ w1, u2f_request_rcode env req resp w = some (U2F_SW_NO_ERROR, w1))
      ∧ (∀ (w0 w1 : World) (rc : Nat),
          u2f_register env (as_register_request req.payload) w0 = some (rc, w1)
          → rc ≠ U2F_SW_INSUFFICIENT_MEMORY) := by
  intro app_id challenge key tag xy hash sig
  have hsz : attestation_cert_der_size env % 2 ^ 16 = env.attestation_cert_der.length :=
    Nat.mod_eq_of_lt hcert
  obtain ⟨r, h1, b1⟩ := request_register env req resp w hu2f hext hcla hins hlen
    htag hup hempty (by rw [hsz]; exact hcap)
  obtain ⟨-, htl⟩ := new_keypair_eq env req.payload w htag
  obtain ⟨r0, h0, -⟩ := register_present env req.payload (w.withResp resp) htag hup
    (by simp only [withResp_resp]; rw [hsz]; omega)
  have hrc : ∃ w1, u2f_request_rcode env req resp w = some (U2F_SW_NO_ERROR, w1) := by
    rw [rcode_switch env req resp w hu2f hext hcla]
    unfold u2f_request_switch
    simp only [hins, hlen, U2F_REGISTER, if_true, ne_eq, not_true_eq_false, if_false]
    exact ⟨_, h0⟩
  have hmem : ∀ (w0 w1 : World) (rc : Nat),
      u2f_register env (as_register_request req.payload) w0 = some (rc, w1)
      → rc ≠ U2F_SW_INSUFFICIENT_MEMORY := by
    intro w0 w1 rc h
    rcases register_status env _ w0 w1 rc h with e | e <;> rw [e] <;> decide
  refine ⟨_, h1, ?_, slice_length _ _ _, htl, hrc, hmem⟩
  have b1' : r.bytes = [0x05, 0x04] ++ (xy.1.val ++ xy.2.val)
      ++ [U2F_KEY_HANDLE_SIZE env % 256] ++ (key ++ tag)
      ++ env.attestation_cert_der.take (attestation_cert_der_size env % 2 ^ 16)
      ++ (env.ctap_encode_der_sig sig).val ++ [0x90, 0x00] := b1
  show r.bytes = _
  rw [b1', hsz, Nat.mod_eq_of_lt hkh, List.take_length]
  simp only [List.append_assoc]

/-- Witness of C5: a 64-byte REGISTER request on the demo device; the response
starts `05 04`, carries the handle length 64 at offset 66 and the RNG bytes as
the key at offset 67. -/
theorem C5_register_response_witness :
    ∃ w', u2f_request demoEnv registerReq demoResp demoWorld = some w'
      ∧ w'._u2f_resp.bytes.take 2 = [0x05, 0x04]
      ∧ (w'._u2f_resp.bytes.drop 66).take 1 = [64]
      ∧ (w'._u2f_resp.bytes.drop 67).take 48
          = slice demoEnv.ctap_generate_rng 0 48 :=
  have h := C5_register_response demoEnv registerReq demoResp demoWorld rfl rfl
    rfl rfl (by decide) (by decide) (by decide) (by decide) (by decide) rfl
    (by decide)
  match h with
  | ⟨w', h1, h2, hk, _, _, _⟩ =>
    ⟨w', h1, by rw [h2]; rfl, by
      rw [h2]
      simp only [List.append_assoc]
      rfl, by
      rw [h2]
      simp only [List.append_assoc]
      rfl⟩

/-- C6: in a successful Register the ECDSA signer is called once, with the
attestation key (the key loaded last), on the 32-byte SHA-256 of
`00 ‖ app_id ‖ challenge ‖ handle ‖ 04 ‖ X ‖ Y`, where `handle = key ‖ tag` and
`X ‖ Y` are the bytes found in the response at offsets 67 and 2; the key used
is not the minted handle. -/
theorem C6_register_signed_hash (env : Env) (req : u2f_request_apdu)
    (resp : CTAP_RESPONSE) (w : World) (hu2f : env.ENABLE_U2F = true)
    (hext : env.extend_u2f = none) (hcla : req.cla = 0)
    (hins : req.ins = 0x01) (hlen : request_len req = 64)
    (htag : env.U2F_KEY_HANDLE_TAG_SIZE ≤ 32)
    (hup : env.ctap_user_presence_test w.up_tests ≠ 0)
    (hempty : resp.length = 0)
    (hcap : 2 + 64 + 1 + U2F_KEY_HANDLE_SIZE env
        + attestation_cert_der_size env % 2 ^ 16 + 72 + 2 ≤ resp.data_size) :
    let app_id := slice req.payload 32 32
    let challenge := slice req.payload 0 32
    let key := slice env.ctap_generate_rng w.rng_pos env.U2F_KEY_HANDLE_KEY_SIZE
    let tag := (env.crypto_sha256_hmac env.CRYPTO_MASTER_KEY
      (key ++ app_id)).val.take env.U2F_KEY_HANDLE_TAG_SIZE
    let xy := env.crypto_ecc256_derive_public_key (key ++ tag)
    let hash := (env.crypto_sha256 ([0x00] ++ app_id ++ challenge
      ++ (key ++ tag) ++ [0x04] ++ (xy.1.val ++ xy.2.val))).val
    ∃ w', u2f_request env req resp w = some w'
      ∧ w'.signed = w.signed ++ [(EccKey.attestation, hash)]
      ∧ w'.ecc_key = EccKey.attestation
      ∧ hash.length = 32
      ∧ app_id.length = 32 ∧ challenge.length = 32
      ∧ (key ++ tag).length = U2F_KEY_HANDLE_SIZE env
      ∧ (w'._u2f_resp.bytes.drop 2).take 64 = xy.1.val ++ xy.2.val
      ∧ (w'._u2f_resp.bytes.drop 67).take (U2F_KEY_HANDLE_SIZE env) = key ++ tag
      ∧ EccKey.attestation ≠ EccKey.handle (key ++ tag) := by
  intro app_id challenge key tag xy hash
  obtain ⟨r, h1, b1⟩ := request_register env req resp w hu2f hext hcla hins hlen
    htag hup hempty hcap
  obtain ⟨-, htl⟩ := new_keypair_eq env req.payload w htag
  have hkl : key.length = env.U2F_KEY_HANDLE_KEY_SIZE := slice_length _ _ _
  have hraw : (key ++ tag).length = U2F_KEY_HANDLE_SIZE env := by
    simp only [List.length_append, hkl, U2F_KEY_HANDLE_SIZE]
    exact congrArg _ htl
  have hxy : (xy.1.val ++ xy.2.val).length = 64 := by
    simp [xy.1.property, xy.2.property]
  generalize hsig : (env.ctap_encode_der_sig
    (env.crypto_ecc256_sign w.signed.length EccKey.attestation hash).val).val = der
    at b1
  have b1' : r.bytes = [0x05, 0x04] ++ (xy.1.val ++ xy.2.val)
      ++ [U2F_KEY_HANDLE_SIZE env % 256] ++ (key ++ tag)
      ++ env.attestation_cert_der.take (attestation_cert_der_size env % 2 ^ 16)
      ++ der ++ [0x90, 0x00] := b1
  obtain ⟨l1, l2⟩ := register_layout (xy.1.val ++ xy.2.val) (key ++ tag)
    (env.attestation_cert_der.take (attestation_cert_der_size env % 2 ^ 16)) der
    (U2F_KEY_HANDLE_SIZE env % 256) (U2F_KEY_HANDLE_SIZE env) hxy hraw
  refine ⟨_, h1, rfl, rfl, (env.crypto_sha256 _).property, slice_length _ _ _,
    slice_length _ _ _, hraw, ?_, ?_, fun h => by cases h⟩
  · show (r.bytes.drop 2).take 64 = _
    rw [b1']
    exact l1
  · show (r.bytes.drop 67).take (U2F_KEY_HANDLE_SIZE env) = _
    rw [b1']
    exact l2

/-- Witness of C6: a 64-byte REGISTER request on the demo device; one signature
is made, with the attestation key, and the handle in the response is
`demoHandle`. -/
theorem C6_register_signed_hash_witness :
    ∃ w', u2f_request demoEnv registerReq demoResp demoWorld = some w'
      ∧ w'.signed.map Prod.fst = [EccKey.attestation]
      ∧ w'.ecc_key = EccKey.attestation
      ∧ (w'._u2f_resp.bytes.drop 67).take 64 = demoHandle :=
  have h := C6_register_signed_hash demoEnv registerReq demoResp demoWorld rfl
    rfl rfl rfl (by decide) (by decide) (by decide) rfl (by decide)
  match h with
  | ⟨w', h1, h2, h3, _, _, _, _, _, h9, _⟩ =>
    ⟨w', h1, by rw [h2]; rfl, h3, h9⟩

/-- C7: the handle `key ‖ tag` emitted by a successful Register for `app_id`
verifies for that `app_id`: `u2f_appid_eq` on it returns 0, and every later
check-only Authenticate that presents these handle bytes with the same
`app_id`, in any state of the device and with any handle length byte, is
answered `69 85`. -/
theorem C7_mint_verify (env : Env) (req : u2f_request_apdu)
    (resp : CTAP_RESPONSE) (w : World) (hu2f : env.ENABLE_U2F = true)
    (hext : env.extend_u2f = none) (hcla : req.cla = 0)
    (hins : req.ins = 0x01) (hlen : request_len req = 64)
    (htag : env.U2F_KEY_HANDLE_TAG_SIZE ≤ 32)
    (hup : env.ctap_user_presence_test w.up_tests ≠ 0)
    (hempty : resp.length = 0)
    (hcap : 2 + 64 + 1 + U2F_KEY_HANDLE_SIZE env
        + attestation_cert_der_size env % 2 ^ 16 + 72 + 2 ≤ resp.data_size) :
    let app_id := slice req.payload 32 32
    let key := slice env.ctap_generate_rng w.rng_pos env.U2F_KEY_HANDLE_KEY_SIZE
    let tag := (env.crypto_sha256_hmac env.CRYPTO_MASTER_KEY
      (key ++ app_id)).val.take env.U2F_KEY_HANDLE_TAG_SIZE
    ∃ w', u2f_request env req resp w = some w'
      ∧ (w'._u2f_resp.bytes.drop 67).take (U2F_KEY_HANDLE_SIZE env) = key ++ tag
      ∧ key.length = env.U2F_KEY_HANDLE_KEY_SIZE
      ∧ tag.length = env.U2F_KEY_HANDLE_TAG_SIZE
      ∧ u2f_appid_eq env { key := key, tag := tag } app_id = 0
      ∧ ∀ (req2 : u2f_request_apdu) (resp2 : CTAP_RESPONSE) (w2 : World),
          req2.cla = 0 → req2.ins = 0x02 → req2.p1 = 0x07
          → slice req2.payload 32 32 = app_id
          → slice req2.payload 65 (U2F_KEY_HANDLE_SIZE env)
              = (w'._u2f_resp.bytes.drop 67).take (U2F_KEY_HANDLE_SIZE env)
          → 2 ≤ resp2.data_size
          → ∃ w3, u2f_request env req2 resp2 w2 = some w3
              ∧ w3._u2f_resp.bytes = [0x69, 0x85] := by
  intro app_id key tag
  obtain ⟨r, h1, b1⟩ := request_register env req resp w hu2f hext hcla hins hlen
    htag hup hempty hcap
  obtain ⟨-, htl⟩ := new_keypair_eq env req.payload w htag
  have hkl : key.length = env.U2F_KEY_HANDLE_KEY_SIZE := slice_length _ _ _
  have htl' : tag.length = env.U2F_KEY_HANDLE_TAG_SIZE := htl
  have hraw : (key ++ tag).length = U2F_KEY_HANDLE_SIZE env := by
    simp only [List.length_append, hkl, htl', U2F_KEY_HANDLE_SIZE]
  obtain ⟨-, l2⟩ := register_layout _ (key ++ tag)
    (env.attestation_cert_der.take (attestation_cert_der_size env % 2 ^ 16))
    (env.ctap_encode_der_sig (env.crypto_ecc256_sign w.signed.length
      EccKey.attestation (env.crypto_sha256 ([0x00] ++ slice req.payload 32 32
        ++ slice req.payload 0 32 ++ (key ++ tag) ++ [0x04]
        ++ ((env.crypto_ecc256_derive_public_key (key ++ tag)).1.val
          ++ (env.crypto_ecc256_derive_public_key (key ++ tag)).2.val))).val).val).val
    (U2F_KEY_HANDLE_SIZE env % 256) (U2F_KEY_HANDLE_SIZE env)
    (show ((env.crypto_ecc256_derive_public_key (key ++ tag)).1.val
        ++ (env.crypto_ecc256_derive_public_key (key ++ tag)).2.val).length = 64 by
      simp [(env.crypto_ecc256_derive_public_key (key ++ tag)).1.property,
        (env.crypto_ecc256_derive_public_key (key ++ tag)).2.property])
    hraw
  have hh : (r.bytes.drop 67).take (U2F_KEY_HANDLE_SIZE env) = key ++ tag := by
    rw [b1]
    exact l2
  refine ⟨_, h1, hh, hkl, htl', ?_, ?_⟩
  · unfold u2f_appid_eq memcmp u2f_make_auth_tag
    have e1 : key.take env.U2F_KEY_HANDLE_KEY_SIZE = key := take_slice _ _ _
    have e2 : app_id.take U2F_APPLICATION_SIZE = app_id := take_slice _ _ _
    simp only [CREDENTIAL_TAG_SIZE, e1, e2, if_true]
  · intro req2 resp2 w2 hcla2 hins2 hp2 happ hkh hcap2
    obtain ⟨r2, hr, hb⟩ := request_check env req2 resp2 w2 hu2f hext hcla2 hins2
      hp2 hcap2
    refine ⟨_, hr, ?_⟩
    rw [withResp_resp, hb]
    have hv : u2f_appid_eq env (as_authenticate_request env req2.payload).kh
        (as_authenticate_request env req2.payload).app = 0 := by
      rw [appid_eq_payload, happ]
      have hkh' : slice req2.payload 65 (U2F_KEY_HANDLE_SIZE env) = key ++ tag :=
        hkh.trans hh
      rw [U2F_KEY_HANDLE_SIZE, slice_add] at hkh'
      have hk2 : (slice req2.payload 65 env.U2F_KEY_HANDLE_KEY_SIZE).length
          = key.length := by
        rw [slice_length, hkl]
      obtain ⟨e1, e2⟩ := List.append_inj hkh' hk2
      rw [e1, e2]
    rw [if_pos hv]

/-- Witness of C7: a 64-byte REGISTER request on the demo device, followed by
the check-only request `checkReq` that presents the minted handle. -/
theorem C7_mint_verify_witness :
    ∃ w3, u2f_request demoEnv checkReq usedResp demoWorld = some w3
      ∧ w3._u2f_resp.bytes = [0x69, 0x85] :=
  have h := C7_mint_verify demoEnv registerReq demoResp demoWorld rfl
    rfl rfl rfl (by decide) (by decide) (by decide) rfl (by decide)
  match h with
  | ⟨_, _, h2, _, _, _, h5⟩ =>
    h5 checkReq usedResp demoWorld rfl rfl rfl (by decide)
      (by rw [h2]; decide) (by decide)

/-- C9: a check-only AUTHENTICATE request (class 0, `p1 = 07`) is answered with
exactly `69 85` when the tag bytes of the presented handle equal the truncated
HMAC, under the master key, of its key bytes and the application identifier,
and with exactly `6A 80` otherwise; in both cases no data is emitted and
nothing but the response buffer changes: counter, presence tests, loaded key
and signatures are as before. -/
theorem C9_check_only (env : Env) (req : u2f_request_apdu)
    (resp : CTAP_RESPONSE) (w : World) (hu2f : env.ENABLE_U2F = true)
    (hext : env.extend_u2f = none) (hcla : req.cla = 0)
    (hins : req.ins = 0x02) (hp1 : req.p1 = 0x07) (hcap : 2 ≤ resp.data_size) :
    let app_id := slice req.payload 32 32
    let key := slice req.payload 65 env.U2F_KEY_HANDLE_KEY_SIZE
    let tag := slice req.payload (65 + env.U2F_KEY_HANDLE_KEY_SIZE)
      env.U2F_KEY_HANDLE_TAG_SIZE
    let recomputed := (env.crypto_sha256_hmac env.CRYPTO_MASTER_KEY
      (key ++ app_id)).val.take env.U2F_KEY_HANDLE_TAG_SIZE
    ∃ w', u2f_request env req resp w = some w'
      ∧ w'._u2f_resp.bytes
          = (if tag = recomputed then [0x69, 0x85] else [0x6a, 0x80])
      ∧ w'.counter = w.counter ∧ w'.up_tests = w.up_tests
      ∧ w'.rng_pos = w.rng_pos ∧ w'.ecc_key = w.ecc_key
      ∧ w'.signed = w.signed := by
  intro app_id key tag recomputed
  obtain ⟨r, hr, hb⟩ := request_check env req resp w hu2f hext hcla hins hp1 hcap
  refine ⟨_, hr, ?_, rfl, rfl, rfl, rfl, rfl⟩
  rw [withResp_resp, hb]
  by_cases ht : tag = recomputed
  · rw [if_pos ((appid_eq_payload env req.payload).mpr ht), if_pos ht]
  · rw [if_neg (fun h => ht ((appid_eq_payload env req.payload).mp h)), if_neg ht]

/-- Witness of C9: the request `checkReq`, whose handle verifies. -/
theorem C9_check_only_witness :
    ∃ w', u2f_request demoEnv checkReq usedResp demoWorld = some w'
      ∧ w'._u2f_resp.bytes = [0x69, 0x85]
      ∧ w'.counter = demoWorld.counter ∧ w'.up_tests = demoWorld.up_tests
      ∧ w'.rng_pos = demoWorld.rng_pos ∧ w'.ecc_key = demoWorld.ecc_key
      ∧ w'.signed = demoWorld.signed :=
  have h := C9_check_only demoEnv checkReq usedResp demoWorld rfl rfl rfl rfl rfl
    (by decide)
  match h with
  | ⟨w', h1, h2, h3⟩ => ⟨w', h1, h2.trans (if_pos (by decide)), h3⟩

set_option maxRecDepth 8000 in
/-- C8, as stated, fails: on the demo device the handle `demoHandle`, minted for
the application identifier `01 02 03 … 20`, also verifies for the different
identifier `02 01 03 … 20`; `u2f_appid_eq` returns 0 and the check-only
Authenticate is answered `69 85`, not `6A 80`. -/
theorem C8_collision :
    slice swappedAppReq.payload 32 32 ≠ slice registerReq.payload 32 32
      ∧ slice swappedAppReq.payload 65 64 = demoHandle
      ∧ (as_authenticate_request demoEnv swappedAppReq.payload).kh.tag
          = (demoEnv.crypto_sha256_hmac demoEnv.CRYPTO_MASTER_KEY
              ((as_authenticate_request demoEnv swappedAppReq.payload).kh.key
                ++ slice registerReq.payload 32 32)).val.take 16
      ∧ u2f_appid_eq demoEnv
          (as_authenticate_request demoEnv swappedAppReq.payload).kh
          (slice swappedAppReq.payload 32 32) = 0
      ∧ ∃ w', u2f_request demoEnv swappedAppReq demoResp demoWorld = some w'
          ∧ w'._u2f_resp.bytes = [0x69, 0x85] := by
  refine ⟨by decide, by decide, by decide, by decide, ?_⟩
  obtain ⟨r, hr, hb⟩ := request_check demoEnv swappedAppReq demoResp demoWorld rfl
    rfl rfl rfl rfl (by decide)
  exact ⟨_, hr, hb.trans (if_pos (by decide))⟩

/-- C8, amended: when a handle minted for `app_id` is presented with an
application identifier `app_id'` whose truncated HMAC under the handle key
differs from the one of `app_id`, `u2f_appid_eq` returns non-zero and the
AUTHENTICATE request, in every control mode, is answered with exactly `6A 80`,
nothing but the response buffer changing. -/
theorem C8_distinct_tag_rejected (env : Env) (req : u2f_request_apdu)
    (resp : CTAP_RESPONSE) (w : World) (app_id : List Nat)
    (hu2f : env.ENABLE_U2F = true) (hext : env.extend_u2f = none)
    (hcla : req.cla = 0) (hins : req.ins = 0x02) (hcap : 2 ≤ resp.data_size)
    (hminted : slice req.payload (65 + env.U2F_KEY_HANDLE_KEY_SIZE)
        env.U2F_KEY_HANDLE_TAG_SIZE
      = (env.crypto_sha256_hmac env.CRYPTO_MASTER_KEY
          (slice req.payload 65 env.U2F_KEY_HANDLE_KEY_SIZE
            ++ app_id)).val.take env.U2F_KEY_HANDLE_TAG_SIZE)
    (hdiff : (env.crypto_sha256_hmac env.CRYPTO_MASTER_KEY
          (slice req.payload 65 env.U2F_KEY_HANDLE_KEY_SIZE
            ++ slice req.payload 32 32)).val.take env.U2F_KEY_HANDLE_TAG_SIZE
      ≠ (env.crypto_sha256_hmac env.CRYPTO_MASTER_KEY
          (slice req.payload 65 env.U2F_KEY_HANDLE_KEY_SIZE
            ++ app_id)).val.take env.U2F_KEY_HANDLE_TAG_SIZE) :
    u2f_appid_eq env (as_authenticate_request env req.payload).kh
        (slice req.payload 32 32) ≠ 0
      ∧ ∃ w', u2f_request env req resp w = some w'
        ∧ w'._u2f_resp.bytes = [0x6a, 0x80]
        ∧ w'.counter = w.counter ∧ w'.up_tests = w.up_tests
        ∧ w'.rng_pos = w.rng_pos ∧ w'.ecc_key = w.ecc_key
        ∧ w'.signed = w.signed := by
  have hv : u2f_appid_eq env (as_authenticate_request env req.payload).kh
      (as_authenticate_request env req.payload).app ≠ 0 := by
    intro h
    rw [appid_eq_payload, hminted] at h
    exact hdiff h.symm
  obtain ⟨r, hr, hb⟩ := request_authenticate_invalid env req resp w hu2f hext hcla
    hins hcap hv
  exact ⟨hv, _, hr, hb, rfl, rfl, rfl, rfl, rfl⟩

/-- Witness of the amended C8: the request `otherAppReq`, which presents
`demoHandle` with an application identifier of another tag. -/
theorem C8_distinct_tag_rejected_witness :
    ∃ w', u2f_request demoEnv otherAppReq demoResp demoWorld = some w'
      ∧ w'._u2f_resp.bytes = [0x6a, 0x80] :=
  have h := C8_distinct_tag_rejected demoEnv otherAppReq demoResp demoWorld
    (slice registerReq.payload 32 32) rfl rfl rfl rfl (by decide) (by decide)
    (by decide)
  match h with
  | ⟨_, w', h1, h2, _⟩ => ⟨w', h1, h2⟩

/-- C10, on the code: the check-only request `checkReqNoLength` carries the
handle length byte 0 while the handle size is 64, and it is answered `69 85`,
the signal that the handle is owned, because the check-only branch returns
before the handle length is looked at. -/
theorem C10_check_only_ignores_khl :
    (as_authenticate_request demoEnv checkReqNoLength.payload).khl = 0
      ∧ U2F_KEY_HANDLE_SIZE demoEnv = 64
      ∧ checkReqNoLength.p1 = U2F_AUTHENTICATE_CHECK
      ∧ ∃ w', u2f_request demoEnv checkReqNoLength demoResp demoWorld = some w'
          ∧ w'._u2f_resp.bytes = [0x69, 0x85] := by
  refine ⟨rfl, rfl, rfl, ?_⟩
  obtain ⟨r, hr, hb⟩ := request_check demoEnv checkReqNoLength demoResp demoWorld
    rfl rfl rfl rfl rfl (by decide)
  exact ⟨_, hr, hb.trans (if_pos (by decide))⟩

/-- C11: an AUTHENTICATE request of class 0 outside check-only mode (`p1 ≠ 07`)
whose `p1` is not `03` (`08` included), or whose handle length byte is not the
handle size, or whose tag bytes are not the truncated HMAC of its key bytes and
the application identifier, is answered with exactly `6A 80`; the presence test
is not made, the counter is unchanged, no key is loaded into the ECDSA engine
and nothing is signed: the handle is loaded only after the three checks. -/
theorem C11_sign_rejected (env : Env) (req : u2f_request_apdu)
    (resp : CTAP_RESPONSE) (w : World) (hu2f : env.ENABLE_U2F = true)
    (hext : env.extend_u2f = none) (hcla : req.cla = 0)
    (hins : req.ins = 0x02) (hp1 : req.p1 ≠ 0x07) (hcap : 2 ≤ resp.data_size)
    (hfail : req.p1 ≠ 0x03
      ∨ req.payload 64 ≠ U2F_KEY_HANDLE_SIZE env
      ∨ slice req.payload (65 + env.U2F_KEY_HANDLE_KEY_SIZE)
          env.U2F_KEY_HANDLE_TAG_SIZE
        ≠ (env.crypto_sha256_hmac env.CRYPTO_MASTER_KEY
            (slice req.payload 65 env.U2F_KEY_HANDLE_KEY_SIZE
              ++ slice req.payload 32 32)).val.take env.U2F_KEY_HANDLE_TAG_SIZE) :
    ∃ w', u2f_request env req resp w = some w'
      ∧ w'._u2f_resp.bytes = [0x6a, 0x80]
      ∧ w'.up_tests = w.up_tests ∧ w'.counter = w.counter
      ∧ w'.ecc_key = w.ecc_key ∧ w'.signed = w.signed
      ∧ w'.rng_pos = w.rng_pos := by
  have h : req.p1 ≠ U2F_AUTHENTICATE_SIGN
      ∨ (as_authenticate_request env req.payload).khl ≠ U2F_KEY_HANDLE_SIZE env
      ∨ u2f_appid_eq env (as_authenticate_request env req.payload).kh
          (as_authenticate_request env req.payload).app ≠ 0 := by
    rcases hfail with h | h | h
    · exact Or.inl h
    · exact Or.inr (Or.inl h)
    · exact Or.inr (Or.inr fun hv => h ((appid_eq_payload env req.payload).mp hv))
  obtain ⟨r, hr, hb⟩ := request_reject env req resp w hu2f hext hcla hins hcap hp1 h
  exact ⟨_, hr, hb, rfl, rfl, rfl, rfl, rfl⟩

/-- Witness of C11: the request `tamperedSignReq`, a SIGN request whose handle
has one tag byte changed. -/
theorem C11_sign_rejected_witness :
    ∃ w', u2f_request demoEnv tamperedSignReq demoResp demoWorld = some w'
      ∧ w'._u2f_resp.bytes = [0x6a, 0x80]
      ∧ w'.up_tests = demoWorld.up_tests ∧ w'.counter = demoWorld.counter
      ∧ w'.ecc_key = demoWorld.ecc_key ∧ w'.signed = demoWorld.signed
      ∧ w'.rng_pos = demoWorld.rng_pos :=
  C11_sign_rejected demoEnv tamperedSignReq demoResp demoWorld rfl rfl rfl rfl
    (by decide) (by decide) (Or.inr (Or.inr (by decide)))

/-- C12: when the presence test fails, a REGISTER request of length 64 and an
AUTHENTICATE request in SIGN mode with the right handle length and a verifying
handle are both answered with exactly `69 85`; one presence test was made, the
counter is not advanced, nothing is signed, no random byte is drawn, and for
REGISTER the key in the ECDSA engine is as before (no handle was minted). -/
theorem C12_presence_gates (env : Env) (req : u2f_request_apdu)
    (resp : CTAP_RESPONSE) (w : World) (hu2f : env.ENABLE_U2F = true)
    (hext : env.extend_u2f = none) (hcla : req.cla = 0)
    (hcap : 2 ≤ resp.data_size)
    (hup : env.ctap_user_presence_test w.up_tests = 0)
    (hcase : (req.ins = 0x01 ∧ request_len req = 64)
      ∨ (req.ins = 0x02 ∧ req.p1 = 0x03
          ∧ req.payload 64 = U2F_KEY_HANDLE_SIZE env
          ∧ slice req.payload (65 + env.U2F_KEY_HANDLE_KEY_SIZE)
              env.U2F_KEY_HANDLE_TAG_SIZE
            = (env.crypto_sha256_hmac env.CRYPTO_MASTER_KEY
                (slice req.payload 65 env.U2F_KEY_HANDLE_KEY_SIZE
                  ++ slice req.payload 32 32)).val.take
                env.U2F_KEY_HANDLE_TAG_SIZE)) :
    ∃ w', u2f_request env req resp w = some w'
      ∧ w'._u2f_resp.bytes = [0x69, 0x85]
      ∧ w'.up_tests = w.up_tests + 1
      ∧ w'.counter = w.counter ∧ w'.signed = w.signed
      ∧ w'.rng_pos = w.rng_pos
      ∧ (req.ins = 0x01 → w'.ecc_key = w.ecc_key) := by
  rcases hcase with ⟨hins, hlen⟩ | ⟨hins, hp1, hkhl, htag⟩
  · obtain ⟨r, hr, hb⟩ := request_register_absent env req resp w hu2f hext hcla
      hins hlen hup hcap
    exact ⟨_, hr, hb, rfl, rfl, rfl, rfl, fun _ => rfl⟩
  · obtain ⟨r, hr, hb⟩ := request_sign_absent env req resp w hu2f hext hcla
      hins hp1 hkhl ((appid_eq_payload env req.payload).mpr htag) hup hcap
    refine ⟨_, hr, hb, rfl, rfl, rfl, rfl, fun h => ?_⟩
    rw [hins] at h
    exact absurd h (by decide)

/-- Witness of C12: the REGISTER request `registerReq` on a device whose
presence test fails. -/
theorem C12_presence_gates_witness :
    ∃ w', u2f_request absentEnv registerReq demoResp demoWorld = some w'
      ∧ w'._u2f_resp.bytes = [0x69, 0x85]
      ∧ w'.up_tests = demoWorld.up_tests + 1
      ∧ w'.counter = demoWorld.counter ∧ w'.signed = demoWorld.signed
      ∧ w'.rng_pos = demoWorld.rng_pos
      ∧ (registerReq.ins = 0x01 → w'.ecc_key = demoWorld.ecc_key) :=
  C12_presence_gates absentEnv registerReq demoResp demoWorld rfl rfl rfl
    (by decide) rfl (Or.inl ⟨rfl, by decide⟩)

/-- C13: an AUTHENTICATE request of class 0 in SIGN mode, with the right handle
length, a verifying handle and a passing presence test, on an empty buffer with
room, advances the counter by exactly one call of the counter service and is
answered with exactly `01 ‖ count_be ‖ DER(signature) ‖ 90 00`, where `count_be`
is the 4-byte big-endian encoding of the value that call returned; below
2^32 - 1 the counter grows by one. -/
theorem C13_sign_response (env : Env) (req : u2f_request_apdu)
    (resp : CTAP_RESPONSE) (w : World) (hu2f : env.ENABLE_U2F = true)
    (hext : env.extend_u2f = none) (hcla : req.cla = 0)
    (hins : req.ins = 0x02) (hp1 : req.p1 = 0x03)
    (hkhl : req.payload 64 = U2F_KEY_HANDLE_SIZE env)
    (htag : slice req.payload (65 + env.U2F_KEY_HANDLE_KEY_SIZE)
        env.U2F_KEY_HANDLE_TAG_SIZE
      = (env.crypto_sha256_hmac env.CRYPTO_MASTER_KEY
          (slice req.payload 65 env.U2F_KEY_HANDLE_KEY_SIZE
            ++ slice req.payload 32 32)).val.take env.U2F_KEY_HANDLE_TAG_SIZE)
    (hup : env.ctap_user_presence_test w.up_tests ≠ 0)
    (hempty : resp.length = 0)
    (hcap : 1 + 4 + 72 + 2 ≤ resp.data_size) :
    let count := (ctap_atomic_count w).1
    let count_be := [count / 2 ^ 24 % 256, count / 2 ^ 16 % 256,
      count / 2 ^ 8 % 256, count % 256]
    let key := EccKey.handle (slice req.payload 65 (U2F_KEY_HANDLE_SIZE env))
    let hash := (env.crypto_sha256 (slice req.payload 32 32 ++ [0x01]
      ++ count_be ++ slice req.payload 0 32)).val
    let sig := (env.crypto_ecc256_sign w.signed.length key hash).val
    ∃ w', u2f_request env req resp w = some w'
      ∧ w'._u2f_resp.bytes = [0x01] ++ count_be
          ++ (env.ctap_encode_der_sig sig).val ++ [0x90, 0x00]
      ∧ w'.counter = (ctap_atomic_count w).2.counter
      ∧ w'.counter = count
      ∧ count = (w.counter + 1) % 2 ^ 32
      ∧ (w.counter + 1 < 2 ^ 32 → w'.counter = w.counter + 1)
      ∧ w'.up_tests = w.up_tests + 1 := by
  intro count count_be key hash sig
  obtain ⟨r, hr, hb⟩ := request_sign env req resp w hu2f hext hcla hins hp1 hkhl
    ((appid_eq_payload env req.payload).mpr htag) hup hempty hcap
  have hcb : count_bytes ((w.counter + 1) % 2 ^ 32) = count_be := count_bytes_eq _
  rw [hcb] at hr hb
  exact ⟨_, hr, hb, rfl, rfl, rfl, fun h => Nat.mod_eq_of_lt h, rfl⟩

/-- Witness of C13: the request `signReq` on the demo device, whose counter
stands at 25; the response carries the counter 26. -/
theorem C13_sign_response_witness :
    ∃ w', u2f_request demoEnv signReq demoResp demoWorld = some w'
      ∧ w'._u2f_resp.bytes.take 5 = [0x01, 0, 0, 0, 26]
      ∧ w'.counter = 26 :=
  have h := C13_sign_response demoEnv signReq demoResp demoWorld rfl rfl rfl rfl
    rfl (by decide) (by decide) (by decide) rfl (by decide)
  match h with
  | ⟨w', h1, h2, _, h4, _⟩ => ⟨w', h1, by rw [h2]; rfl, h4⟩

/-- C14: in a successful Authenticate-Sign the ECDSA signer is called once, on
the 32-byte SHA-256 of `app_id ‖ 01 ‖ count_be ‖ challenge`, where `count_be`
are the four counter bytes found in the response at offset 1, and with the key
loaded from the `U2F_KEY_HANDLE_SIZE` handle bytes that the request presents. -/
theorem C14_sign_signed_hash (env : Env) (req : u2f_request_apdu)
    (resp : CTAP_RESPONSE) (w : World) (hu2f : env.ENABLE_U2F = true)
    (hext : env.extend_u2f = none) (hcla : req.cla = 0)
    (hins : req.ins = 0x02) (hp1 : req.p1 = 0x03)
    (hkhl : req.payload 64 = U2F_KEY_HANDLE_SIZE env)
    (htag : slice req.payload (65 + env.U2F_KEY_HANDLE_KEY_SIZE)
        env.U2F_KEY_HANDLE_TAG_SIZE
      = (env.crypto_sha256_hmac env.CRYPTO_MASTER_KEY
          (slice req.payload 65 env.U2F_KEY_HANDLE_KEY_SIZE
            ++ slice req.payload 32 32)).val.take env.U2F_KEY_HANDLE_TAG_SIZE)
    (hup : env.ctap_user_presence_test w.up_tests ≠ 0)
    (hempty : resp.length = 0)
    (hcap : 1 + 4 + 72 + 2 ≤ resp.data_size) :
    let app_id := slice req.payload 32 32
    let challenge := slice req.payload 0 32
    let handle := slice req.payload 65 (U2F_KEY_HANDLE_SIZE env)
    ∃ (w' : World) (count_be : List Nat), u2f_request env req resp w = some w'
      ∧ count_be = (w'._u2f_resp.bytes.drop 1).take 4
      ∧ count_be = count_bytes ((w.counter + 1) % 2 ^ 32)
      ∧ w'.signed = w.signed ++ [(EccKey.handle handle,
          (env.crypto_sha256 (app_id ++ [0x01] ++ count_be ++ challenge)).val)]
      ∧ (env.crypto_sha256 (app_id ++ [0x01] ++ count_be ++ challenge)).val.length = 32
      ∧ w'.ecc_key = EccKey.handle handle
      ∧ handle.length = U2F_KEY_HANDLE_SIZE env
      ∧ app_id.length = 32 ∧ challenge.length = 32 ∧ count_be.length = 4 := by
  intro app_id challenge handle
  obtain ⟨r, hr, hb⟩ := request_sign env req resp w hu2f hext hcla hins hp1 hkhl
    ((appid_eq_payload env req.payload).mpr htag) hup hempty hcap
  have hcnt : (r.bytes.drop 1).take 4 = count_bytes ((w.counter + 1) % 2 ^ 32) := by
    rw [hb, List.append_assoc]
    exact drop_take_mid [0x01] (count_bytes ((w.counter + 1) % 2 ^ 32)) _ 1 4 rfl rfl
  refine ⟨_, _, hr, rfl, hcnt, ?_, (env.crypto_sha256 _).property, rfl,
    slice_length _ _ _, slice_length _ _ _, slice_length _ _ _, ?_⟩
  · show w.signed ++ _ = w.signed ++ _
    rw [show (r.bytes.drop 1).take 4 = count_bytes ((w.counter + 1) % 2 ^ 32) from hcnt]
  · show ((r.bytes.drop 1).take 4).length = 4
    rw [hcnt]
    rfl

/-- Witness of C14: the request `signReq` on the demo device; one signature is
made, with the key loaded from `demoHandle`. -/
theorem C14_sign_signed_hash_witness :
    ∃ w', u2f_request demoEnv signReq demoResp demoWorld = some w'
      ∧ w'.signed.length = 1
      ∧ w'.ecc_key = EccKey.handle demoHandle :=
  have h := C14_sign_signed_hash demoEnv signReq demoResp demoWorld rfl rfl rfl
    rfl rfl (by decide) (by decide) (by decide) rfl (by decide)
  match h with
  | ⟨w', _, h1, _, _, h4, _, h6, _⟩ =>
    ⟨w', h1, by rw [h4]; rfl, h6.trans (congrArg EccKey.handle (by decide))⟩

/-- C16, on the code: the request `vendorInsideReq` has class 0 and the
instruction `41`, inside the vendor range `40 … BF`, and it is answered `6D 00`
(instruction not supported), not `90 00`: the `switch` has `case` labels for
the two ends of the range only. -/
theorem C16_vendor_inside_rejected :
    vendorInsideReq.cla = 0
      ∧ U2F_VENDOR_FIRST ≤ vendorInsideReq.ins
      ∧ vendorInsideReq.ins ≤ U2F_VENDOR_LAST
      ∧ ∃ w', u2f_request demoEnv vendorInsideReq demoResp demoWorld = some w'
          ∧ w'._u2f_resp.bytes = [0x6d, 0x00] := by
  refine ⟨rfl, by decide, by decide, ?_⟩
  obtain ⟨r, hr, hb⟩ := request_ins_not_supported demoEnv vendorInsideReq demoResp
    demoWorld rfl rfl rfl (by decide) (by decide) (by decide) (by decide)
    (by decide) (by decide)
  exact ⟨_, hr, hb⟩

/-- C17: a request of class 0 whose instruction is not `01`, `02`, `03` and not
in the vendor range `40 … BF` is answered, whatever `p1`, `p2`, the length bytes
and the payload, with exactly `6D 00`; no presence test is made, the counter is
unchanged, nothing is signed, and the rest of the state is as before. -/
theorem C17_ins_not_supported (env : Env) (req : u2f_request_apdu)
    (resp : CTAP_RESPONSE) (w : World) (hu2f : env.ENABLE_U2F = true)
    (hext : env.extend_u2f = none) (hcla : req.cla = 0)
    (hcap : 2 ≤ resp.data_size)
    (h1 : req.ins ≠ 0x01) (h2 : req.ins ≠ 0x02) (h3 : req.ins ≠ 0x03)
    (hvendor : ¬ (0x40 ≤ req.ins ∧ req.ins ≤ 0xbf)) :
    ∃ w', u2f_request env req resp w = some w'
      ∧ w'._u2f_resp.bytes = [0x6d, 0x00]
      ∧ w'.up_tests = w.up_tests ∧ w'.counter = w.counter
      ∧ w'.signed = w.signed ∧ w'.ecc_key = w.ecc_key
      ∧ w'.rng_pos = w.rng_pos := by
  have h4 : req.ins ≠ U2F_VENDOR_FIRST := fun h =>
    hvendor (by rw [h]; exact ⟨by decide, by decide⟩)
  have h5 : req.ins ≠ U2F_VENDOR_LAST := fun h =>
    hvendor (by rw [h]; exact ⟨by decide, by decide⟩)
  obtain ⟨r, hr, hb⟩ := request_ins_not_supported env req resp w hu2f hext hcla
    hcap h1 h2 h3 h4 h5
  exact ⟨_, hr, hb, rfl, rfl, rfl, rfl, rfl⟩

/-- Witness of C17: the request `unknownInsReq`, with instruction `04`, on a
buffer that still holds bytes. -/
theorem C17_ins_not_supported_witness :
    ∃ w', u2f_request demoEnv unknownInsReq usedResp demoWorld = some w'
      ∧ w'._u2f_resp.bytes = [0x6d, 0x00]
      ∧ w'.up_tests = demoWorld.up_tests ∧ w'.counter = demoWorld.counter
      ∧ w'.signed = demoWorld.signed ∧ w'.ecc_key = demoWorld.ecc_key
      ∧ w'.rng_pos = demoWorld.rng_pos :=
  C17_ins_not_supported demoEnv unknownInsReq usedResp demoWorld rfl rfl rfl
    (by decide) (by decide) (by decide) (by decide) (by decide)

/-- C19: `u2f_response_writeback(buf, len)` aborts exactly when
`length + len > data_size`, the sum taken without wrap-around; otherwise it
returns 0, touches the response buffer only, keeps the capacity, makes the
length `length + len` (at most the capacity), leaves the first `length` bytes
as they were and makes the bytes from `length` to `length + len` those of
`buf`.  The bytes after any sequence of successful appends are the bytes before
it followed by the arguments in call order, so after a reset they are the
concatenation of the arguments; a sequence that fits as a whole succeeds. -/
theorem C19_writeback_appends (w : World) (buf : List Nat) (len : Nat) :
    (u2f_response_writeback_ret w buf len = none
        ↔ w._u2f_resp.length + len > w._u2f_resp.data_size)
      ∧ (u2f_response_writeback_ret w buf len).map Prod.snd
          = u2f_response_writeback w buf len
      ∧ (w._u2f_resp.length + len ≤ w._u2f_resp.data_size →
          ∃ r, u2f_response_writeback_ret w buf len = some (0, w.withResp r)
            ∧ r.length = w._u2f_resp.length + len
            ∧ r.length ≤ r.data_size
            ∧ r.data_size = w._u2f_resp.data_size
            ∧ (∀ i, i < w._u2f_resp.length → r.data i = w._u2f_resp.data i)
            ∧ (∀ i, i < len → r.data (w._u2f_resp.length + i) = buf.getD i 0)
            ∧ r.bytes.take w._u2f_resp.length = w._u2f_resp.bytes
            ∧ (len ≤ buf.length
                → r.bytes = w._u2f_resp.bytes ++ buf.take len))
      ∧ (∀ (bufs : List (List Nat)) (w' : World), writeback_seq w bufs = some w'
          → w'._u2f_resp.bytes = w._u2f_resp.bytes ++ bufs.flatten)
      ∧ (∀ (bufs : List (List Nat)) (w' : World),
          writeback_seq (u2f_reset_response w) bufs = some w'
          → w'._u2f_resp.bytes = bufs.flatten)
      ∧ (∀ bufs : List (List Nat),
          w._u2f_resp.length + (bufs.map List.length).sum ≤ w._u2f_resp.data_size
          → ∃ w', writeback_seq w bufs = some w') := by
  refine ⟨?_, writeback_ret_snd w buf len, ?_,
    fun bufs w' h => (writeback_seq_bytes bufs w w' h).1, ?_,
    fun bufs h => writeback_seq_fits bufs w h⟩
  · unfold u2f_response_writeback_ret
    by_cases h : w._u2f_resp.length + len > w._u2f_resp.data_size <;> simp [h]
  · intro hfit
    refine ⟨w._u2f_resp.written buf len, ?_, rfl, ?_, rfl, ?_, ?_, ?_, ?_⟩
    · unfold u2f_response_writeback_ret
      simp [Nat.not_lt.mpr hfit, World.withResp, CTAP_RESPONSE.written]
    · exact hfit
    · intro i hi
      show (if w._u2f_resp.length ≤ i ∧ i < w._u2f_resp.length + len
        then buf.getD (i - w._u2f_resp.length) 0 else w._u2f_resp.data i) = _
      rw [if_neg (by omega)]
    · intro i hi
      show (if w._u2f_resp.length ≤ w._u2f_resp.length + i
          ∧ w._u2f_resp.length + i < w._u2f_resp.length + len
        then buf.getD (w._u2f_resp.length + i - w._u2f_resp.length) 0
        else w._u2f_resp.data (w._u2f_resp.length + i)) = _
      rw [if_pos (by omega), Nat.add_sub_cancel_left]
    · show (slice (w._u2f_resp.written buf len).data 0 (w._u2f_resp.length + len)).take
          w._u2f_resp.length = slice w._u2f_resp.data 0 w._u2f_resp.length
      rw [slice_add, List.take_left' (slice_length _ _ _)]
      unfold slice
      apply List.map_congr_left
      intro i hi
      have hlt := List.mem_range.mp hi
      simp only [CTAP_RESPONSE.written, Nat.zero_add]
      rw [if_neg (by omega)]
    · intro hlen
      exact written_bytes _ _ _ hlen
  · intro bufs w' h
    have := (writeback_seq_bytes bufs _ w' h).1
    rw [this]
    simp [u2f_reset_response, ctap_response_init, CTAP_RESPONSE.bytes, slice]

/-- C20: two AUTHENTICATE requests of class 0 that agree on `p1` and on the
payload, whatever their length bytes (and `p2`), leave the device in the same
state with the same response; the status is the one `u2f_authenticate` computes
from the fixed-layout fields of the payload, it is never `WRONG_LENGTH`, and
with room in the buffer the call returns. -/
theorem C20_length_not_consulted (env : Env) (req1 req2 : u2f_request_apdu)
    (resp : CTAP_RESPONSE) (w : World) (hext : env.extend_u2f = none)
    (hcla1 : req1.cla = 0) (hcla2 : req2.cla = 0)
    (hins1 : req1.ins = 0x02) (hins2 : req2.ins = 0x02)
    (hp1 : req1.p1 = req2.p1) (hpayload : req1.payload = req2.payload) :
    u2f_request env req1 resp w = u2f_request env req2 resp w
      ∧ u2f_request_rcode env req1 resp w = u2f_request_rcode env req2 resp w
      ∧ (env.ENABLE_U2F = true →
          u2f_request_rcode env req1 resp w
            = u2f_authenticate env
                { chal := slice req1.payload 0 32
                  app := slice req1.payload 32 32
                  khl := req1.payload 64
                  kh :=
                    { key := slice req1.payload 65 env.U2F_KEY_HANDLE_KEY_SIZE
                      tag := slice req1.payload (65 + env.U2F_KEY_HANDLE_KEY_SIZE)
                        env.U2F_KEY_HANDLE_TAG_SIZE } }
                req1.p1 (u2f_set_writeback_buffer w resp))
      ∧ (∀ (rc : Nat) (w1 : World),
          u2f_request_rcode env req1 resp w = some (rc, w1)
          → rc ≠ U2F_SW_WRONG_LENGTH)
      ∧ (resp.length + (2 + 64 + 1 + U2F_KEY_HANDLE_SIZE env
            + attestation_cert_der_size env % 2 ^ 16 + 72) + 2 ≤ resp.data_size
          → ∃ w', u2f_request env req1 resp w = some w') := by
  have e1 := rcode_authenticate env req1 resp w hext hcla1 hins1
  have e2 := rcode_authenticate env req2 resp w hext hcla2 hins2
  have hrc : u2f_request_rcode env req1 resp w = u2f_request_rcode env req2 resp w := by
    rw [e1, e2, hp1, hpayload]
  refine ⟨?_, hrc, ?_, ?_, fun hfit => request_returns env req1 resp w hext hfit⟩
  · unfold u2f_request
    rw [hrc]
  · intro hu2f
    rw [e1, if_pos hu2f]
    rfl
  · intro rc w1 h
    rw [e1] at h
    by_cases hu2f : env.ENABLE_U2F = true
    · rw [if_pos hu2f] at h
      rcases authenticate_status env _ _ _ _ _ h with e | e | e <;> rw [e] <;> decide
    · rw [if_neg hu2f] at h
      have hrc0 : 0 = rc := congrArg Prod.fst (Option.some.inj h)
      rw [← hrc0]
      decide

/-- Witness of C20: the check-only request `checkReq`, with length bytes
`00 00 81`, and the same request with all length bytes zero. -/
theorem C20_length_not_consulted_witness :
    request_len checkReq ≠ request_len checkReqZeroLc
      ∧ u2f_request demoEnv checkReq demoResp demoWorld
          = u2f_request demoEnv checkReqZeroLc demoResp demoWorld
      ∧ ∃ w', u2f_request demoEnv checkReqZeroLc demoResp demoWorld = some w' :=
  have h := C20_length_not_consulted demoEnv checkReq checkReqZeroLc demoResp
    demoWorld rfl rfl rfl rfl rfl rfl rfl
  have h' := C20_length_not_consulted demoEnv checkReqZeroLc checkReq demoResp
    demoWorld rfl rfl rfl rfl rfl rfl rfl
  ⟨by decide, h.1, h'.2.2.2.2 (by decide)⟩

/-- C18, as stated, fails: `u2f_set_writeback_buffer` binds the buffer without
touching its length, so the VERSION request of scenario S1 on a buffer that
holds the three bytes `AA AA AA` leaves eleven bytes, the three old ones
first, not eight. -/
theorem C18_stale_bytes_kept :
    usedResp.bytes = [0xaa, 0xaa, 0xaa]
      ∧ (u2f_set_writeback_buffer demoWorld usedResp)._u2f_resp.length = 3
      ∧ ∃ w', u2f_request demoEnv versionReq usedResp demoWorld = some w'
          ∧ w'._u2f_resp.bytes = [0xaa, 0xaa, 0xaa, 0x55, 0x32, 0x46, 0x5f, 0x56,
              0x32, 0x90, 0x00]
          ∧ w'._u2f_resp.bytes.length = 11 := by
  refine ⟨rfl, rfl, ?_⟩
  obtain ⟨r, hr, hb⟩ := request_version demoEnv versionReq usedResp demoWorld rfl
    rfl rfl rfl rfl (by decide)
  have hb' : r.bytes = [0xaa, 0xaa, 0xaa, 0x55, 0x32, 0x46, 0x5f, 0x56, 0x32,
      0x90, 0x00] := hb
  exact ⟨_, hr, hb', by rw [withResp_resp, hb']; rfl⟩

/-- C18, amended: binding the response writer leaves the buffer as it is, and
for every request there are one status word and one data string such that, on
every response buffer with room, `u2f_request` leaves the bytes held on entry
followed by the data and `90 00` when the status is `NO_ERROR`, and exactly the
two status bytes otherwise; for a VERSION request of length 0 the bytes held on
entry are followed by the eight bytes `55 32 46 5F 56 32 90 00`.  The buffer
holds this request's response alone when it was empty on entry or the status
is an error. -/
theorem C18_appends_after_entry_bytes (env : Env) (req : u2f_request_apdu)
    (w : World) (hext : env.extend_u2f = none)
    (htag : env.U2F_KEY_HANDLE_TAG_SIZE ≤ 32) :
    (∀ resp : CTAP_RESPONSE, (u2f_set_writeback_buffer w resp)._u2f_resp = resp)
      ∧ (∃ (rcode : Nat) (data : List Nat), rcode < 2 ^ 16
          ∧ ∀ resp : CTAP_RESPONSE,
            resp.length + (2 + 64 + 1 + U2F_KEY_HANDLE_SIZE env
            + attestation_cert_der_size env % 2 ^ 16 + 72) + 2 ≤ resp.data_size →
            ∃ w', u2f_request env req resp w = some w'
              ∧ w'._u2f_resp.bytes
                = (if rcode = U2F_SW_NO_ERROR then resp.bytes ++ data else [])
                  ++ [rcode / 256, rcode % 256]
              ∧ (resp.length = 0 → w'._u2f_resp.bytes
                = (if rcode = U2F_SW_NO_ERROR then data else [])
                  ++ [rcode / 256, rcode % 256]))
      ∧ (env.ENABLE_U2F = true → req.cla = 0 → req.ins = 0x03
          → request_len req = 0
          → ∀ resp : CTAP_RESPONSE, resp.length + 8 ≤ resp.data_size →
            ∃ w', u2f_request env req resp w = some w'
              ∧ w'._u2f_resp.bytes
                = resp.bytes ++ [0x55, 0x32, 0x46, 0x5f, 0x56, 0x32, 0x90, 0x00]) := by
  refine ⟨fun _ => rfl, ?_, ?_⟩
  · obtain ⟨rcode, data, w1, hlt, -, hall⟩ := request_spec env req w hext htag
    refine ⟨rcode, data, hlt, fun resp hfit => ?_⟩
    obtain ⟨r, hr, hb⟩ := hall resp hfit
    refine ⟨_, hr, hb, fun hempty => ?_⟩
    rw [withResp_resp, hb, bytes_of_length_zero resp hempty, List.nil_append]
  · intro hu2f hcla hins hlen resp hcap
    obtain ⟨r, hr, hb⟩ := request_version env req resp w hu2f hext hcla hins hlen hcap
    exact ⟨_, hr, hb⟩

/-- Witness of the amended C18: the demo device and the VERSION request of
scenario S1; on the buffer `usedResp` the three old bytes stay in front. -/
theorem C18_appends_after_entry_bytes_witness :
    ∃ w', u2f_request demoEnv versionReq usedResp demoWorld = some w'
      ∧ w'._u2f_resp.bytes
        = usedResp.bytes ++ [0x55, 0x32, 0x46, 0x5f, 0x56, 0x32, 0x90, 0x00] :=
  (C18_appends_after_entry_bytes demoEnv versionReq demoWorld rfl
    (by decide)).2.2 rfl rfl rfl rfl usedResp (by decide)

end U2F
